import Mathlib

/-!
Verification of the navigation simulation engine of the `boot_save_robot`
repository: the A* pathfinding component (`src/astar_labirinto.py`), the
grid-world simulator (`src/simulador_labirinto.py`), the sensor-only
exploration strategy (`src/explorador_simples.py`) and the post-collection
safety validation (`src/robo_resgate.py`).

The Python code is shallowly embedded: positions are pairs of integers,
maps are lists of rows of characters (Python strings), Python `raise`
becomes an `Except` error value, and Python's in-place mutation of the
single environment object becomes explicit state passing.  Python's
`heapq` module is standard-library code, not part of the repository; it is
modelled by its documented semantics (`heappop` removes and returns a
smallest element with respect to `NoNavegacao.__lt__`, which compares
`custo_f`; `heappush` inserts; `heapify` re-establishes the heap shape
without changing the multiset of elements).  The model resolves the
tie-breaking that `heapq` leaves unspecified by taking the leftmost
minimal element; the proved properties (optimal path length, `None` iff
unreachable) are independent of tie-breaking, as the specification itself
notes.
-/

/-- A position `(linha, coluna)`.  Python coordinates are unbounded signed
integers, so positions are pairs of `Int`. -/
abbrev Pos : Type := Int × Int

/-- A maze map as consumed by `algoritmo_busca_astar`: a list of rows of
characters (`List[List[str]]` holding single-character strings). -/
abbrev Mapa : Type := List (List Char)

/-- `mapa[i][j]` for indices that have already passed the code's bound
checks (`0 <= i < len(mapa)` and `0 <= j < len(mapa[0])`).  On a
rectangular map this is exactly Python's indexing; on a ragged map Python
raises `IndexError` where this total function returns the default, which
is why the pathfinding theorems carry a `Retangular` hypothesis (the
callers in `robo_resgate.py` only pass maps normalised by
`_construir_representacao_mapa`, which right-pads every row). -/
def celula (mapa : Mapa) (p : Pos) : Char :=
  (mapa.getD p.1.toNat []).getD p.2.toNat ' '

/-- All rows have the width of the first row (the width used by every
bound check in `astar_labirinto.py`). -/
def Retangular (mapa : Mapa) : Prop :=
  ∀ linha ∈ mapa, linha.length = (mapa.headD []).length

instance (mapa : Mapa) : Decidable (Retangular mapa) := by
  unfold Retangular; infer_instance

/-- `calcular_distancia_manhattan`: `abs(li - lo) + abs(ci - co)`.  The
Python function returns a float-annotated int; the values are natural
numbers. -/
def calcular_distancia_manhattan (posicao_atual posicao_objetivo : Pos) : Nat :=
  (posicao_atual.1 - posicao_objetivo.1).natAbs +
    (posicao_atual.2 - posicao_objetivo.2).natAbs

/-- The fixed neighbour order of `obter_vizinhos_validos`:
north, south, east, west. -/
def direcoesBusca : List (Int × Int) := [(-1, 0), (1, 0), (0, 1), (0, -1)]

/-- `obter_vizinhos_validos`: the 4-connected neighbours of `posicao` that
are inside the map (rows bounded by `len(mapa)`, columns by
`len(mapa[0])`) and are not a wall `'*'`.  The Python loop appends in
direction order; `filterMap` over the same direction list produces the
same list. -/
def obter_vizinhos_validos (posicao : Pos) (mapa : Mapa) : List Pos :=
  direcoesBusca.filterMap (fun delta =>
    let nova : Pos := (posicao.1 + delta.1, posicao.2 + delta.2)
    if 0 ≤ nova.1 ∧ nova.1 < (mapa.length : Int) ∧
        0 ≤ nova.2 ∧ nova.2 < ((mapa.headD []).length : Int) ∧
        celula mapa nova ≠ '*' then
      some nova
    else
      none)

/-- `NoNavegacao`: a search node.  `no_pai` is a reference to the parent
node; parents are only ever popped (hence never mutated again) nodes, so
the Python reference is faithfully modelled by an immutable sub-term. -/
inductive NoNavegacao : Type where
  | mk : Pos → Nat → Nat → Nat → Option NoNavegacao → NoNavegacao

/-- The `posicao` attribute. -/
def NoNavegacao.posicao : NoNavegacao → Pos
  | .mk p _ _ _ _ => p

/-- The `custo_g` attribute. -/
def NoNavegacao.custo_g : NoNavegacao → Nat
  | .mk _ g _ _ _ => g

/-- The `custo_h` attribute. -/
def NoNavegacao.custo_h : NoNavegacao → Nat
  | .mk _ _ h _ _ => h

/-- The `custo_f` attribute (stored, as in the Python class). -/
def NoNavegacao.custo_f : NoNavegacao → Nat
  | .mk _ _ _ f _ => f

/-- The `no_pai` attribute. -/
def NoNavegacao.no_pai : NoNavegacao → Option NoNavegacao
  | .mk _ _ _ _ pai => pai

/-- The chain of positions visited by `reconstruir_caminho_otimo`'s
`while` loop, in the order the loop appends them (node first, start
last). -/
def cadeiaNo : NoNavegacao → List Pos
  | .mk p _ _ _ none => [p]
  | .mk p _ _ _ (some pai) => p :: cadeiaNo pai

/-- `reconstruir_caminho_otimo`: walk the parent chain, then reverse. -/
def reconstruir_caminho_otimo (no_objetivo : NoNavegacao) : List Pos :=
  (cadeiaNo no_objetivo).reverse

/-- Model of `heapq.heappop` on a nonempty list `n :: resto`: removes and
returns a node of minimal `custo_f` (`NoNavegacao.__lt__` compares
`custo_f`), leaving the rest in order.  Ties go to the leftmost element;
`heapq` documents only that some smallest element is returned. -/
def popMinAux (n : NoNavegacao) : List NoNavegacao → NoNavegacao × List NoNavegacao
  | [] => (n, [])
  | m :: resto =>
    if m.custo_f < n.custo_f then
      let r := popMinAux m resto
      (r.1, n :: r.2)
    else
      let r := popMinAux n resto
      (r.1, m :: r.2)

/-- The neighbour-expansion loop of `algoritmo_busca_astar` (`for
posicao_vizinho in vizinhos`), threading the priority queue and the key
set of the `nos_abertos` dict.  The dict's values are the very node
objects stored in the queue (pushed and removed together), so the node
looked up by `nos_abertos[posicao_vizinho]` is found in the queue; the
in-place relaxation (`custo_g`/`custo_f`/`no_pai` update followed by
`heapify`, which permutes but does not change the multiset) is the
positional replacement below. -/
def expandirVizinhos (objetivo : Pos) (no_atual : NoNavegacao) :
    List Pos → List NoNavegacao → List Pos → List Pos →
    List NoNavegacao × List Pos
  | [], fila, _, abertos => (fila, abertos)
  | p :: resto, fila, visitados, abertos =>
    if p ∈ visitados then
      expandirVizinhos objetivo no_atual resto fila visitados abertos
    else
      let custo_g_vizinho := no_atual.custo_g + 1
      let custo_h_vizinho := calcular_distancia_manhattan p objetivo
      if p ∈ abertos then
        let fila2 := fila.map (fun no =>
          if no.posicao = p ∧ custo_g_vizinho < no.custo_g then
            .mk p custo_g_vizinho no.custo_h (custo_g_vizinho + custo_h_vizinho)
              (some no_atual)
          else no)
        expandirVizinhos objetivo no_atual resto fila2 visitados abertos
      else
        let no_vizinho : NoNavegacao :=
          .mk p custo_g_vizinho custo_h_vizinho (custo_g_vizinho + custo_h_vizinho)
            (some no_atual)
        expandirVizinhos objetivo no_atual resto (fila ++ [no_vizinho]) visitados
          (p :: abertos)

/-- The main `while fila_prioridade:` loop of `algoritmo_busca_astar`.
`fuel` bounds the number of iterations so the recursion is structural;
`none` means the fuel ran out, which `astarLoop_roda` proves never
happens for the fuel supplied by `algoritmo_busca_astar`, so the Python
unbounded loop is modelled exactly. -/
def astarLoop (mapa : Mapa) (objetivo : Pos) :
    Nat → List NoNavegacao → List Pos → List Pos → Option (Option (List Pos))
  | 0, _, _, _ => none
  | _ + 1, [], _, _ => some none
  | fuel + 1, n :: resto, visitados, abertos =>
    let pop := popMinAux n resto
    let no_atual := pop.1
    if no_atual.posicao = objetivo then
      some (some (reconstruir_caminho_otimo no_atual))
    else
      let visitados1 := no_atual.posicao :: visitados
      let abertos1 := abertos.erase no_atual.posicao
      let vizinhos := obter_vizinhos_validos no_atual.posicao mapa
      let passo := expandirVizinhos objetivo no_atual vizinhos pop.2 visitados1 abertos1
      astarLoop mapa objetivo fuel passo.1 visitados1 passo.2

/-- The five distinct `ValueError`s raised by the input validation of
`algoritmo_busca_astar`, each carrying the offending coordinate that the
Python message interpolates. -/
inductive ErroAstar : Type where
  | mapaNulo : ErroAstar
  | posicaoInicialInvalida : Pos → ErroAstar
  | posicaoObjetivoInvalida : Pos → ErroAstar
  | posicaoInicialObstaculo : Pos → ErroAstar
  | posicaoObjetivoObstaculo : Pos → ErroAstar
deriving DecidableEq

/-- `algoritmo_busca_astar`.  A raised `ValueError` is an `.error`; a
normal return is `.ok` with `None` or the found path.  The fuel
`len(mapa) * len(mapa[0]) + 1` strictly exceeds the number of loop
iterations (each iteration permanently marks a distinct in-bounds cell
visited), so the `getD` default is never used. -/
def algoritmo_busca_astar (mapa : Mapa) (posicao_inicial posicao_objetivo : Pos) :
    Except ErroAstar (Option (List Pos)) :=
  if mapa.length = 0 ∨ (mapa.headD []).length = 0 then
    .error .mapaNulo
  else if posicao_inicial.1 < 0 ∨ (mapa.length : Int) ≤ posicao_inicial.1 ∨
      posicao_inicial.2 < 0 ∨ ((mapa.headD []).length : Int) ≤ posicao_inicial.2 then
    .error (.posicaoInicialInvalida posicao_inicial)
  else if posicao_objetivo.1 < 0 ∨ (mapa.length : Int) ≤ posicao_objetivo.1 ∨
      posicao_objetivo.2 < 0 ∨ ((mapa.headD []).length : Int) ≤ posicao_objetivo.2 then
    .error (.posicaoObjetivoInvalida posicao_objetivo)
  else if celula mapa posicao_inicial = '*' then
    .error (.posicaoInicialObstaculo posicao_inicial)
  else if celula mapa posicao_objetivo = '*' then
    .error (.posicaoObjetivoObstaculo posicao_objetivo)
  else if posicao_inicial = posicao_objetivo then
    .ok (some [posicao_inicial])
  else
    let custo_h_inicial := calcular_distancia_manhattan posicao_inicial posicao_objetivo
    let no_inicial : NoNavegacao := .mk posicao_inicial 0 custo_h_inicial custo_h_inicial none
    .ok ((astarLoop mapa posicao_objetivo (mapa.length * (mapa.headD []).length + 1)
      [no_inicial] [] [posicao_inicial]).getD none)

/-- The three proximity-sensor readings.  The Python strings are
`"PAREDE"` (wall), `"VAZIO"` (open floor, modelled as `vago`) and
`"HUMANO"` (the collectable object). -/
inductive Leitura : Type where
  | parede : Leitura
  | vago : Leitura
  | humano : Leitura
deriving DecidableEq

/-- The exceptions of the simulator, the explorer and the mission
validation.  Each Python `raise` site gets its own constructor;
`indiceForaDaLinha` stands for the `IndexError` Python raises when a
column index passes the `len(labirinto[0])` bound check but the addressed
row is shorter, and `direcaoInvalida` for the `KeyError`/`IndexError` of
the direction tables (unreachable while the direction stays in 0..3). -/
inductive ErroAmbiente : Type where
  | nenhumaEntrada : ErroAmbiente
  | multiplasEntradas : ErroAmbiente
  | entradasInvalidas : Nat → ErroAmbiente
  | objetosInvalidos : Nat → ErroAmbiente
  | indiceForaDaLinha : Pos → ErroAmbiente
  | direcaoInvalida : Nat → ErroAmbiente
  | colisaoParede : Pos → Pos → ErroAmbiente
  | comandoInvalido : Char → ErroAmbiente
  | coletaSemObjetoAFrente : ErroAmbiente
  | erroAoColetarObjeto : ErroAmbiente
  | ejecaoSemObjetoColetado : ErroAmbiente
  | ejecaoForaDaSaida : ErroAmbiente
  | pilhaNula : ErroAmbiente
  | leiturasInsuficientes : ErroAmbiente
  | alarmeTresParedes : ErroAmbiente
  | alarmeBecoSemSaida : ErroAmbiente
  | alarmeLeiturasSensores : ErroAmbiente
deriving DecidableEq

/-- The mutable state of `AmbienteNavegacao`: the maze (a list of row
strings, mutated only by `coletar_objeto`), the agent position, the agent
direction (`0`=North, `1`=East, `2`=South, `3`=West) and the
carried-object flag. -/
structure AmbienteNavegacao : Type where
  labirinto : Mapa
  posicao_agente : Pos
  direcao_agente : Nat
  objeto_coletado : Bool
deriving DecidableEq

/-- Python's `labirinto[i][j]` after the guard
`0 <= i < len(labirinto) and 0 <= j < len(labirinto[0])`: the row access
always succeeds, but the column access raises `IndexError` when row `i`
is shorter than row `0`. -/
def lerCelula (lab : Mapa) (p : Pos) : Except ErroAmbiente Char :=
  let linha := lab.getD p.1.toNat []
  if h : p.2.toNat < linha.length then
    .ok (linha.get ⟨p.2.toNat, h⟩)
  else
    .error (.indiceForaDaLinha p)

/-- The `direcoes_relativas` table of
`obter_leituras_sensores_proximidade`: per direction, the relative
offsets of the left, front and right sensed cells.  A direction outside
0..3 is a Python `KeyError`. -/
def direcoesRelativasSensores (direcao : Nat) :
    Except ErroAmbiente (List (Int × Int)) :=
  match direcao with
  | 0 => .ok [(-1, -1), (-1, 0), (-1, 1)]
  | 1 => .ok [(-1, 1), (0, 1), (1, 1)]
  | 2 => .ok [(1, 1), (1, 0), (1, -1)]
  | 3 => .ok [(1, -1), (0, -1), (-1, -1)]
  | d => .error (.direcaoInvalida d)

/-- One sensor reading of `obter_leituras_sensores_proximidade`: inside
the `len(labirinto)` × `len(labirinto[0])` box the cell is read (with the
possible ragged-row `IndexError`) and classified; outside it the reading
is `PAREDE`. -/
def lerSensor (lab : Mapa) (p : Pos) : Except ErroAmbiente Leitura :=
  if 0 ≤ p.1 ∧ p.1 < (lab.length : Int) ∧
      0 ≤ p.2 ∧ p.2 < ((lab.headD []).length : Int) then
    do
      let conteudo ← lerCelula lab p
      if conteudo = '*' ∨ conteudo = 'X' then
        pure .parede
      else if conteudo = 'H' ∨ conteudo = '@' then
        pure .humano
      else
        pure .vago
  else
    pure .parede

/-- `obter_leituras_sensores_proximidade`: the left, front and right
readings for the agent's direction. -/
def obter_leituras_sensores_proximidade (amb : AmbienteNavegacao) :
    Except ErroAmbiente (List Leitura) := do
  let direcoes ← direcoesRelativasSensores amb.direcao_agente
  direcoes.mapM (fun delta =>
    lerSensor amb.labirinto (amb.posicao_agente.1 + delta.1, amb.posicao_agente.2 + delta.2))

/-- The `direcoes_movimento` list of `_avancar_agente`, indexed by the
direction: north, east, south, west. -/
def direcoesMovimento (direcao : Nat) : Except ErroAmbiente (Int × Int) :=
  match ([(-1, 0), (0, 1), (1, 0), (0, -1)] : List (Int × Int)).get? direcao with
  | some delta => .ok delta
  | none => .error (.direcaoInvalida direcao)

/-- `_avancar_agente`: move one cell in the current direction;
`ValueError` (a collision) if the target fails the bound check or holds a
wall.  A failure leaves the environment untouched, which the `Except`
result models by not producing a new state. -/
def avancar_agente (amb : AmbienteNavegacao) : Except ErroAmbiente AmbienteNavegacao := do
  let delta ← direcoesMovimento amb.direcao_agente
  let nova : Pos := (amb.posicao_agente.1 + delta.1, amb.posicao_agente.2 + delta.2)
  if 0 ≤ nova.1 ∧ nova.1 < (amb.labirinto.length : Int) ∧
      0 ≤ nova.2 ∧ nova.2 < ((amb.labirinto.headD []).length : Int) then
    do
      let conteudo ← lerCelula amb.labirinto nova
      if conteudo = '*' ∨ conteudo = 'X' then
        .error (.colisaoParede amb.posicao_agente nova)
      else
        .ok { amb with posicao_agente := nova }
  else
    .error (.colisaoParede amb.posicao_agente nova)

/-- `_girar_agente`: rotate 90 degrees clockwise.  Never fails. -/
def girar_agente (amb : AmbienteNavegacao) : AmbienteNavegacao :=
  { amb with direcao_agente := (amb.direcao_agente + 1) % 4 }

/-- The `direcoes_frente` table of `_coletar_objeto`. -/
def direcaoFrente (direcao : Nat) : Except ErroAmbiente (Int × Int) :=
  match direcao with
  | 0 => .ok (-1, 0)
  | 1 => .ok (0, 1)
  | 2 => .ok (1, 0)
  | 3 => .ok (0, -1)
  | d => .error (.direcaoInvalida d)

/-- The string surgery `linha[:coluna] + ' ' + linha[coluna+1:]` that
removes the collected object from its row. -/
def removerObjetoDaLinha (linha : List Char) (coluna : Nat) : List Char :=
  linha.take coluna ++ [' '] ++ linha.drop (coluna + 1)

/-- `_coletar_objeto`: requires the front sensor to read `HUMANO`, then
re-reads the front cell and replaces it by a blank.  The raw
`labirinto[linha_objeto][coluna_objeto]` access is modelled by
`lerCelula`; it is only reached when the front reading was `HUMANO`, which
puts the index in bounds, where both agree. -/
def coletar_objeto (amb : AmbienteNavegacao) : Except ErroAmbiente AmbienteNavegacao := do
  let leituras ← obter_leituras_sensores_proximidade amb
  if 2 ≤ leituras.length ∧ leituras.getD 1 .parede = .humano then
    do
      let delta ← direcaoFrente amb.direcao_agente
      let objeto : Pos := (amb.posicao_agente.1 + delta.1, amb.posicao_agente.2 + delta.2)
      let conteudo ← lerCelula amb.labirinto objeto
      if conteudo = 'H' ∨ conteudo = '@' then
        let linha := amb.labirinto.getD objeto.1.toNat []
        .ok { amb with
          objeto_coletado := true
          labirinto := amb.labirinto.set objeto.1.toNat
            (removerObjetoDaLinha linha objeto.2.toNat) }
      else
        .error .erroAoColetarObjeto
  else
    .error .coletaSemObjetoAFrente

/-- `_verificar_posicao_saida`: the agent stands on the border (first or
last row, or first column, or the last column of the first row's
width). -/
def verificar_posicao_saida (amb : AmbienteNavegacao) : Bool :=
  amb.posicao_agente.1 = 0 ∨ amb.posicao_agente.1 = (amb.labirinto.length : Int) - 1 ∨
    amb.posicao_agente.2 = 0 ∨
    amb.posicao_agente.2 = ((amb.labirinto.headD []).length : Int) - 1

/-- `_ejetar_objeto`: needs a collected object and a border position;
clears the carried flag. -/
def ejetar_objeto (amb : AmbienteNavegacao) : Except ErroAmbiente AmbienteNavegacao :=
  if amb.objeto_coletado = false then
    .error .ejecaoSemObjetoColetado
  else if verificar_posicao_saida amb = false then
    .error .ejecaoForaDaSaida
  else
    .ok { amb with objeto_coletado := false }

/-- `executar_comando_navegacao`: dispatch on the single-character
command. -/
def executar_comando_navegacao (comando : Char) (amb : AmbienteNavegacao) :
    Except ErroAmbiente AmbienteNavegacao :=
  if comando = 'A' then
    avancar_agente amb
  else if comando = 'G' then
    .ok (girar_agente amb)
  else if comando = 'P' then
    coletar_objeto amb
  else if comando = 'E' then
    ejetar_objeto amb
  else
    .error (.comandoInvalido comando)

/-- `_localizar_ponto_entrada`: all coordinates holding `'E'`, scanned
row-major; exactly one must exist. -/
def localizar_ponto_entrada (lab : Mapa) : Except ErroAmbiente Pos :=
  let entradas := (lab.enum.map (fun par =>
    par.2.enum.filterMap (fun par2 =>
      if par2.2 = 'E' then some ((par.1 : Int), (par2.1 : Int)) else none))).flatten
  match entradas with
  | [] => .error .nenhumaEntrada
  | [entrada] => .ok entrada
  | _ :: _ :: _ => .error .multiplasEntradas

/-- `_calcular_orientacao_inicial`: the row-border checks take precedence
over the column checks. -/
def calcular_orientacao_inicial (lab : Mapa) (entrada : Pos) : Nat :=
  if entrada.1 = 0 then 2
  else if entrada.1 = (lab.length : Int) - 1 then 0
  else if entrada.2 = 0 then 1
  else 3

/-- `_validar_integridade_mapa`: exactly one `'E'` and exactly one
`'H'`/`'@'`. -/
def validar_integridade_mapa (lab : Mapa) : Except ErroAmbiente Unit :=
  let contador_entradas := (lab.map (fun linha => linha.count 'E')).sum
  let contador_objetos := (lab.map (fun linha => linha.count 'H' + linha.count '@')).sum
  if contador_entradas ≠ 1 then
    .error (.entradasInvalidas contador_entradas)
  else if contador_objetos ≠ 1 then
    .error (.objetosInvalidos contador_objetos)
  else
    .ok ()

/-- The `AmbienteNavegacao` constructor for an in-memory map: locate the
entrance, derive the initial direction, then validate the map. -/
def AmbienteNavegacao.criar (lab : Mapa) : Except ErroAmbiente AmbienteNavegacao := do
  let entrada ← localizar_ponto_entrada lab
  let amb : AmbienteNavegacao :=
    { labirinto := lab
      posicao_agente := entrada
      direcao_agente := calcular_orientacao_inicial lab entrada
      objeto_coletado := false }
  let _ ← validar_integridade_mapa lab
  pure amb

/-- The agent position addresses a cell that exists in its own row and is
not a wall — the Agent State invariant of the specification. -/
def PosicaoValida (amb : AmbienteNavegacao) : Prop :=
  0 ≤ amb.posicao_agente.1 ∧ amb.posicao_agente.1 < (amb.labirinto.length : Int) ∧
    0 ≤ amb.posicao_agente.2 ∧
    amb.posicao_agente.2 < ((amb.labirinto.getD amb.posicao_agente.1.toNat []).length : Int) ∧
    celula amb.labirinto amb.posicao_agente ≠ '*' ∧
    celula amb.labirinto amb.posicao_agente ≠ 'X'

instance (amb : AmbienteNavegacao) : Decidable (PosicaoValida amb) := by
  unfold PosicaoValida; infer_instance

/-- The mutable state of `ExploradorInteligente`: the environment it
drives, the known map (`mapa_conhecido`, a Python dict modelled as an
association list), the visited set, the depth-first stack (top kept
first; Python keeps the top last and peeks `[-1]`), the discovered object
position and the iteration budget (default 500). -/
structure Explorador : Type where
  ambiente : AmbienteNavegacao
  mapa_conhecido : List (Pos × Char)
  posicoes_visitadas : List Pos
  pilha_navegacao : List Pos
  posicao_objeto : Option Pos
  max_iteracoes : Nat
deriving DecidableEq

/-- Dict lookup `mapa_conhecido.get(chave)`. -/
def dictGet (dicionario : List (Pos × Char)) (chave : Pos) : Option Char :=
  (dicionario.find? (fun par => par.1 == chave)).map (fun par => par.2)

/-- Dict store `mapa_conhecido[chave] = valor`: replace the binding if
the key is present, otherwise append it. -/
def dictSet (dicionario : List (Pos × Char)) (chave : Pos) (valor : Char) :
    List (Pos × Char) :=
  if (dicionario.find? (fun par => par.1 == chave)).isSome then
    dicionario.map (fun par => if par.1 == chave then (chave, valor) else par)
  else
    dicionario ++ [(chave, valor)]

/-- The `mapa_direcoes_sensores` table of `_atualizar_mapa_com_sensores`
(the explorer's own copy of the sensor-offset table). -/
def mapaDirecoesSensores (direcao : Nat) : Except ErroAmbiente (List (Int × Int)) :=
  match direcao with
  | 0 => .ok [(-1, -1), (-1, 0), (-1, 1)]
  | 1 => .ok [(-1, 1), (0, 1), (1, 1)]
  | 2 => .ok [(1, 1), (1, 0), (1, -1)]
  | 3 => .ok [(1, -1), (0, -1), (-1, -1)]
  | d => .error (.direcaoInvalida d)

/-- The body of the `for idx, (di, dj) in enumerate(...)` loop of
`_atualizar_mapa_com_sensores`, folded over the offset/reading pairs
(both lists have length 3, so `zip` models `leituras[idx]` exactly). -/
def registrarLeituras (posicao_atual : Pos) :
    List ((Int × Int) × Leitura) → List (Pos × Char) → Option Pos →
    List (Pos × Char) × Option Pos
  | [], mapa_conhecido, posicao_objeto => (mapa_conhecido, posicao_objeto)
  | (delta, leitura) :: resto, mapa_conhecido, posicao_objeto =>
    let alvo : Pos := (posicao_atual.1 + delta.1, posicao_atual.2 + delta.2)
    match leitura with
    | .parede =>
      registrarLeituras posicao_atual resto (dictSet mapa_conhecido alvo 'X') posicao_objeto
    | .humano =>
      registrarLeituras posicao_atual resto (dictSet mapa_conhecido alvo '@') (some alvo)
    | .vago =>
      if dictGet mapa_conhecido alvo = none then
        registrarLeituras posicao_atual resto (dictSet mapa_conhecido alvo '.') posicao_objeto
      else
        registrarLeituras posicao_atual resto mapa_conhecido posicao_objeto

/-- `_atualizar_mapa_com_sensores`: sense once at the current orientation
and record the three sensed cells in the known map.  Only
`mapa_conhecido` and `posicao_objeto` are mutated. -/
def atualizar_mapa_com_sensores (posicao_atual : Pos) (st : Explorador) :
    Except ErroAmbiente Explorador := do
  let direcoes ← mapaDirecoesSensores st.ambiente.direcao_agente
  let leituras ← obter_leituras_sensores_proximidade st.ambiente
  let resultado := registrarLeituras posicao_atual (direcoes.zip leituras)
    st.mapa_conhecido st.posicao_objeto
  pure { st with mapa_conhecido := resultado.1, posicao_objeto := resultado.2 }

/-- The `direcoes_absolutas` table of
`_encontrar_proxima_posicao_para_explorar`: per direction the absolute
offsets of front, right, left, in that priority order. -/
def direcoesAbsolutas (direcao : Nat) : Except ErroAmbiente (List (Int × Int)) :=
  match direcao with
  | 0 => .ok [(-1, 0), (0, 1), (0, -1)]
  | 1 => .ok [(0, 1), (1, 0), (-1, 0)]
  | 2 => .ok [(1, 0), (0, -1), (0, 1)]
  | 3 => .ok [(0, -1), (-1, 0), (1, 0)]
  | d => .error (.direcaoInvalida d)

/-- The candidate scan of `_encontrar_proxima_posicao_para_explorar`: the
first offset whose cell is neither visited nor known to be a wall. -/
def primeiraCandidata (st : Explorador) (posicao_atual : Pos) :
    List (Int × Int) → Option Pos
  | [] => none
  | delta :: resto =>
    let nova : Pos := (posicao_atual.1 + delta.1, posicao_atual.2 + delta.2)
    if nova ∉ st.posicoes_visitadas ∧ dictGet st.mapa_conhecido nova ≠ some 'X' then
      some nova
    else
      primeiraCandidata st posicao_atual resto

/-- `_encontrar_proxima_posicao_para_explorar`. -/
def encontrar_proxima_posicao_para_explorar (posicao_atual : Pos) (st : Explorador) :
    Except ErroAmbiente (Option Pos) := do
  let direcoes ← direcoesAbsolutas st.ambiente.direcao_agente
  pure (primeiraCandidata st posicao_atual direcoes)

/-- `_get_posicao_a_frente`: Python returns `None` for a direction
outside 0..3. -/
def get_posicao_a_frente (posicao_atual : Pos) (direcao_robo : Nat) : Option Pos :=
  match direcao_robo with
  | 0 => some (posicao_atual.1 - 1, posicao_atual.2)
  | 1 => some (posicao_atual.1, posicao_atual.2 + 1)
  | 2 => some (posicao_atual.1 + 1, posicao_atual.2)
  | 3 => some (posicao_atual.1, posicao_atual.2 - 1)
  | _ => none

/-- The `while` loop of `_ajustar_direcao`.  Both directions stay in
0..3 in every reachable call, so at most 3 rotations happen and fuel 4
models the unbounded Python loop exactly (after one rotation the
direction is in 0..3, and from there every target in 0..3 is reached in
at most 3 further rotations). -/
def ajustarDirecaoFuel : Nat → Nat → AmbienteNavegacao → AmbienteNavegacao
  | 0, _, amb => amb
  | fuel + 1, direcao_alvo, amb =>
    if amb.direcao_agente = direcao_alvo then amb
    else ajustarDirecaoFuel fuel direcao_alvo (girar_agente amb)

/-- `_ajustar_direcao`. -/
def ajustar_direcao (direcao_alvo : Nat) (amb : AmbienteNavegacao) : AmbienteNavegacao :=
  ajustarDirecaoFuel 4 direcao_alvo amb

/-- `_mover_para`: derive the target direction from the coordinate
delta (a non-adjacent target returns without moving), rotate to it, then
advance — propagating any collision error from
`executar_comando_navegacao('A')`. -/
def mover_para (posicao_alvo : Pos) (amb : AmbienteNavegacao) :
    Except ErroAmbiente AmbienteNavegacao :=
  let dx := posicao_alvo.1 - amb.posicao_agente.1
  let dy := posicao_alvo.2 - amb.posicao_agente.2
  let direcao_alvo : Option Nat :=
    if dx = 1 then some 2
    else if dx = -1 then some 0
    else if dy = 1 then some 1
    else if dy = -1 then some 3
    else none
  match direcao_alvo with
  | none => .ok amb
  | some alvo => executar_comando_navegacao 'A' (ajustar_direcao alvo amb)

/-- The `while iteracao < self.max_iteracoes` loop of
`explorar_ate_encontrar_objeto`; the fuel is the number of remaining
iterations.  Exhausted fuel is the Python loop falling through to
`return False`.  An empty stack at the loop head would be a Python
`IndexError` on `pilha_navegacao[-1]`; the loop is only ever entered with
a nonempty stack, and both branches keep it nonempty. -/
def explorarLoop : Nat → Explorador → Except ErroAmbiente Bool
  | 0, _ => .ok false
  | fuel + 1, st =>
    match st.pilha_navegacao with
    | [] => .error .pilhaNula
    | posicao_atual :: _ => do
      let st1 ← atualizar_mapa_com_sensores posicao_atual st
      let leituras ← obter_leituras_sensores_proximidade st1.ambiente
      match leituras.get? 1 with
      | none => .error .leiturasInsuficientes
      | some frente =>
        if frente = .humano then
          .ok true
        else do
          let proxima ← encontrar_proxima_posicao_para_explorar posicao_atual st1
          match proxima with
          | some nova => do
            let amb2 ← mover_para nova st1.ambiente
            explorarLoop fuel { st1 with
              ambiente := amb2
              posicoes_visitadas := amb2.posicao_agente :: st1.posicoes_visitadas
              pilha_navegacao := amb2.posicao_agente :: st1.pilha_navegacao }
          | none =>
            match st1.pilha_navegacao with
            | [] => .error .pilhaNula
            | _ :: pilha2 =>
              match pilha2 with
              | [] => .ok false
              | topo :: _ => do
                let amb2 ← mover_para topo st1.ambiente
                explorarLoop fuel { st1 with ambiente := amb2, pilha_navegacao := pilha2 }

/-- `explorar_ate_encontrar_objeto`: seed the visited set, the known map
and the stack with the agent's start position, then run the loop for at
most `max_iteracoes` iterations. -/
def explorar_ate_encontrar_objeto (st : Explorador) : Except ErroAmbiente Bool :=
  let posicao_inicial := st.ambiente.posicao_agente
  explorarLoop st.max_iteracoes { st with
    posicoes_visitadas := posicao_inicial :: st.posicoes_visitadas
    mapa_conhecido := dictSet st.mapa_conhecido posicao_inicial 'E'
    pilha_navegacao := [posicao_inicial] ++ st.pilha_navegacao }

/-- The `ExploradorInteligente` constructor (fresh known map, visited
set, stack and object position; the default iteration budget is 500). -/
def Explorador.criar (amb : AmbienteNavegacao) : Explorador :=
  { ambiente := amb
    mapa_conhecido := []
    posicoes_visitadas := []
    pilha_navegacao := []
    posicao_objeto := none
    max_iteracoes := 500 }

/-- `_validar_estado_pos_coleta` of `robo_resgate.py`: after a
collection, not all three readings may be walls (else the trapped-agent
alarm), at least one reading must be open (else the dead-end alarm), and
there must be exactly three readings (else the sensor-fault alarm). -/
def validar_estado_pos_coleta (amb : AmbienteNavegacao) : Except ErroAmbiente Unit :=
  if amb.objeto_coletado = false then
    .ok ()
  else do
    let leituras ← obter_leituras_sensores_proximidade amb
    if 3 ≤ leituras.length ∧ leituras.all (fun leitura => leitura = .parede) then
      .error .alarmeTresParedes
    else if leituras.countP (fun leitura => leitura = .vago) = 0 then
      .error .alarmeBecoSemSaida
    else if leituras.length ≠ 3 then
      .error .alarmeLeiturasSensores
    else
      .ok ()

/-- A cell that the search may stand on: inside the box checked by
`obter_vizinhos_validos` (`len(mapa)` rows, `len(mapa[0])` columns) and
not a wall. -/
def Livre (mapa : Mapa) (p : Pos) : Prop :=
  0 ≤ p.1 ∧ p.1 < (mapa.length : Int) ∧ 0 ≤ p.2 ∧
    p.2 < ((mapa.headD []).length : Int) ∧ celula mapa p ≠ '*'

instance (mapa : Mapa) (p : Pos) : Decidable (Livre mapa p) := by
  unfold Livre; infer_instance

/-- `Caminho mapa partida p d`: there is a 4-connected walk of `d` steps
from `partida` to `p` through free cells — the ground-truth reachability
oracle, defined through the same cell predicate the code checks. -/
inductive Caminho (mapa : Mapa) (partida : Pos) : Pos → Nat → Prop where
  | base (hlivre : Livre mapa partida) : Caminho mapa partida partida 0
  | passo {p q : Pos} {d : Nat} (hc : Caminho mapa partida p d)
      (hq : q ∈ obter_vizinhos_validos p mapa) : Caminho mapa partida q (d + 1)

/-- `d` is the length of a shortest 4-connected free walk from `partida`
to `objetivo`. -/
def MenorDistancia (mapa : Mapa) (partida objetivo : Pos) (d : Nat) : Prop :=
  Caminho mapa partida objetivo d ∧ ∀ d2, Caminho mapa partida objetivo d2 → d ≤ d2

/-- The parent chain of a search node is an actual walk: the root is the
start node created with `custo_g = 0` and no parent, and every other node
extends its parent by one valid neighbour step with `custo_g` one
larger — exactly how `algoritmo_busca_astar` builds nodes. -/
inductive CadeiaOk (mapa : Mapa) (partida : Pos) : NoNavegacao → Prop where
  | base (h f : Nat) (hlivre : Livre mapa partida) :
      CadeiaOk mapa partida (.mk partida 0 h f none)
  | passo (p : Pos) (h f : Nat) (pai : NoNavegacao) (hpai : CadeiaOk mapa partida pai)
      (hviz : p ∈ obter_vizinhos_validos pai.posicao mapa) :
      CadeiaOk mapa partida (.mk p (pai.custo_g + 1) h f (some pai))

/-- A well-formed search node: valid parent chain, `custo_h` the Manhattan
heuristic of its position, and `custo_f = custo_g + custo_h` (every write
in the Python code maintains this). -/
def NoBom (mapa : Mapa) (partida objetivo : Pos) (no : NoNavegacao) : Prop :=
  CadeiaOk mapa partida no ∧
    no.custo_h = calcular_distancia_manhattan no.posicao objetivo ∧
    no.custo_f = no.custo_g + no.custo_h

/-- The loop invariant of the A* main loop, at the top of each iteration.
`fila` is the priority queue, `visitados` the closed set, `abertos` the
key set of the `nos_abertos` dict. -/
structure InvAstar (mapa : Mapa) (partida objetivo : Pos) (fila : List NoNavegacao)
    (visitados abertos : List Pos) : Prop where
  nosBons : ∀ no ∈ fila, NoBom mapa partida objetivo no
  posNodup : (fila.map NoNavegacao.posicao).Nodup
  abertosNodup : abertos.Nodup
  abertosIff : ∀ p : Pos, p ∈ abertos ↔ ∃ no ∈ fila, no.posicao = p
  naoVisitados : ∀ no ∈ fila, no.posicao ∉ visitados
  visLivres : ∀ v ∈ visitados, Livre mapa v
  visAlcancaveis : ∀ v ∈ visitados, ∃ d, Caminho mapa partida v d
  partidaPresente : partida ∈ visitados ∨ ∃ no ∈ fila, no.posicao = partida
  partidaG : ∀ no ∈ fila, no.posicao = partida → no.custo_g = 0
  objetivoNaoVisitado : objetivo ∉ visitados
  fechado : ∀ v ∈ visitados, ∀ q ∈ obter_vizinhos_validos v mapa,
    q ∈ visitados ∨ ∃ no ∈ fila, no.posicao = q
  cotaFronteira : ∀ no ∈ fila, ∀ v ∈ visitados,
    no.posicao ∈ obter_vizinhos_validos v mapa →
    ∀ d, MenorDistancia mapa partida v d → no.custo_g ≤ d + 1

/-- The invariant holding during the expansion of the neighbours of the
just-popped node `no_atual`.  `visitadosAntigos` is the closed set before
the pop, `visitados1 = no_atual.posicao :: visitadosAntigos` the one
after; `fechadoAb` and `cotaFronteira` are stated against the old closed
set — the popped cell's own neighbours satisfy them only once its
neighbour list has been fully processed. -/
structure MidInvAstar (mapa : Mapa) (partida objetivo : Pos)
    (visitadosAntigos visitados1 : List Pos) (fila : List NoNavegacao)
    (abertos : List Pos) : Prop where
  nosBons : ∀ no ∈ fila, NoBom mapa partida objetivo no
  posNodup : (fila.map NoNavegacao.posicao).Nodup
  abertosNodup : abertos.Nodup
  abertosIff : ∀ p : Pos, p ∈ abertos ↔ ∃ no ∈ fila, no.posicao = p
  naoVisitados : ∀ no ∈ fila, no.posicao ∉ visitados1
  partidaPresente : partida ∈ visitados1 ∨ partida ∈ abertos
  partidaG : ∀ no ∈ fila, no.posicao = partida → no.custo_g = 0
  fechadoAb : ∀ v ∈ visitadosAntigos, ∀ q ∈ obter_vizinhos_validos v mapa,
    q ∈ visitados1 ∨ q ∈ abertos
  cotaFronteira : ∀ no ∈ fila, ∀ v ∈ visitadosAntigos,
    no.posicao ∈ obter_vizinhos_validos v mapa →
    ∀ d, MenorDistancia mapa partida v d → no.custo_g ≤ d + 1

/-- All in-box positions of the map, the universe that bounds how many
iterations the A* loop can run. -/
def posicoesDoMapa (mapa : Mapa) : List Pos :=
  (List.range mapa.length).flatMap (fun i =>
    (List.range (mapa.headD []).length).map (fun j => (Int.ofNat i, Int.ofNat j)))

/-- How many in-box positions are not yet visited: the termination
measure of the A* loop. -/
def contagemRestante (mapa : Mapa) (visitados : List Pos) : Nat :=
  (posicoesDoMapa mapa).countP (fun p => decide (p ∉ visitados))

/-! ## Basic lemmas about the pathfinding embedding -/

lemma mem_obter_vizinhos {mapa : Mapa} {p q : Pos} :
    q ∈ obter_vizinhos_validos p mapa ↔
      (∃ delta ∈ direcoesBusca, q = (p.1 + delta.1, p.2 + delta.2)) ∧ Livre mapa q := by
  unfold obter_vizinhos_validos
  simp only [List.mem_filterMap]
  constructor
  · rintro ⟨delta, hdelta, hq⟩
    split at hq
    · simp only [Option.some.injEq] at hq
      subst hq
      exact ⟨⟨delta, hdelta, rfl⟩, by assumption⟩
    · simp at hq
  · rintro ⟨⟨delta, hdelta, hq⟩, hlivre⟩
    refine ⟨delta, hdelta, ?_⟩
    subst hq
    exact if_pos hlivre

lemma livre_de_vizinho {mapa : Mapa} {p q : Pos} (h : q ∈ obter_vizinhos_validos p mapa) :
    Livre mapa q :=
  (mem_obter_vizinhos.1 h).2

lemma manhattan_auto (p : Pos) : calcular_distancia_manhattan p p = 0 := by
  simp [calcular_distancia_manhattan]

lemma manhattan_vizinho {mapa : Mapa} {p q : Pos}
    (h : q ∈ obter_vizinhos_validos p mapa) : calcular_distancia_manhattan p q = 1 := by
  obtain ⟨⟨delta, hdelta, hq⟩, -⟩ := mem_obter_vizinhos.1 h
  subst hq
  simp only [direcoesBusca, List.mem_cons, List.not_mem_nil, or_false] at hdelta
  rcases hdelta with h1 | h1 | h1 | h1 <;> subst h1 <;>
    simp only [calcular_distancia_manhattan] <;> omega

lemma vizinho_ne {mapa : Mapa} {p q : Pos} (h : q ∈ obter_vizinhos_validos p mapa) :
    q ≠ p := by
  intro hqp
  have h1 := manhattan_vizinho h
  rw [hqp, manhattan_auto] at h1
  exact Nat.zero_ne_one h1

lemma manhattan_triangulo (a b c : Pos) :
    calcular_distancia_manhattan a c ≤
      calcular_distancia_manhattan a b + calcular_distancia_manhattan b c := by
  unfold calcular_distancia_manhattan
  have h1 : (a.1 - c.1).natAbs ≤ (a.1 - b.1).natAbs + (b.1 - c.1).natAbs := by
    have he : a.1 - c.1 = (a.1 - b.1) + (b.1 - c.1) := by ring
    rw [he]
    exact Int.natAbs_add_le _ _
  have h2 : (a.2 - c.2).natAbs ≤ (a.2 - b.2).natAbs + (b.2 - c.2).natAbs := by
    have he : a.2 - c.2 = (a.2 - b.2) + (b.2 - c.2) := by ring
    rw [he]
    exact Int.natAbs_add_le _ _
  omega

lemma caminho_zero {mapa : Mapa} {partida p : Pos} (h : Caminho mapa partida p 0) :
    p = partida ∧ Livre mapa partida := by
  cases h
  exact ⟨rfl, by assumption⟩

lemma caminho_sucessor {mapa : Mapa} {partida q : Pos} {d : Nat}
    (h : Caminho mapa partida q (d + 1)) :
    ∃ p, Caminho mapa partida p d ∧ q ∈ obter_vizinhos_validos p mapa := by
  cases h with
  | passo hc hq => exact ⟨_, hc, hq⟩

lemma caminho_livre_fim {mapa : Mapa} {partida p : Pos} {d : Nat}
    (h : Caminho mapa partida p d) : Livre mapa p := by
  induction h with
  | base hlivre => exact hlivre
  | passo hc hq _ => exact livre_de_vizinho hq

lemma caminho_livre_partida {mapa : Mapa} {partida p : Pos} {d : Nat}
    (h : Caminho mapa partida p d) : Livre mapa partida := by
  induction h with
  | base hlivre => exact hlivre
  | passo _ _ ih => exact ih

lemma existe_menor_distancia {mapa : Mapa} {partida p : Pos}
    (h : ∃ d, Caminho mapa partida p d) : ∃ d, MenorDistancia mapa partida p d := by
  obtain ⟨d, hd⟩ := h
  haveI : DecidablePred (fun n => Caminho mapa partida p n) := Classical.decPred _
  exact ⟨Nat.find ⟨d, hd⟩, Nat.find_spec ⟨d, hd⟩,
    fun d2 h2 => Nat.find_min' ⟨d, hd⟩ h2⟩

lemma menor_distancia_unica {mapa : Mapa} {partida p : Pos} {d1 d2 : Nat}
    (h1 : MenorDistancia mapa partida p d1) (h2 : MenorDistancia mapa partida p d2) :
    d1 = d2 :=
  Nat.le_antisymm (h1.2 _ h2.1) (h2.2 _ h1.1)

lemma popMinAux_perm (n : NoNavegacao) (l : List NoNavegacao) :
    List.Perm ((popMinAux n l).1 :: (popMinAux n l).2) (n :: l) := by
  induction l generalizing n with
  | nil => simp [popMinAux]
  | cons m resto ih =>
    simp only [popMinAux]
    split
    · exact (List.Perm.swap n _ _).trans ((ih m).cons n)
    · exact ((List.Perm.swap m _ _).trans ((ih n).cons m)).trans (List.Perm.swap n m resto)

lemma popMinAux_mem (n : NoNavegacao) (l : List NoNavegacao) :
    (popMinAux n l).1 ∈ n :: l :=
  (popMinAux_perm n l).mem_iff.1 (List.mem_cons_self _ _)

lemma popMinAux_min (n : NoNavegacao) (l : List NoNavegacao) :
    ∀ x ∈ n :: l, (popMinAux n l).1.custo_f ≤ x.custo_f := by
  induction l generalizing n with
  | nil =>
    intro x hx
    simp only [List.mem_cons, List.not_mem_nil, or_false] at hx
    subst hx
    simp [popMinAux]
  | cons m resto ih =>
    intro x hx
    simp only [List.mem_cons] at hx
    simp only [popMinAux]
    split
    · rename_i hlt
      rcases hx with h1 | h1 | h1
      · rw [h1]
        exact le_trans (ih m m (List.mem_cons_self _ _)) (le_of_lt hlt)
      · rw [h1]
        exact ih m m (List.mem_cons_self _ _)
      · exact ih m x (List.mem_cons_of_mem _ h1)
    · rename_i hge
      rcases hx with h1 | h1 | h1
      · rw [h1]
        exact ih n n (List.mem_cons_self _ _)
      · rw [h1]
        exact le_trans (ih n n (List.mem_cons_self _ _)) (by omega)
      · exact ih n x (List.mem_cons_of_mem _ h1)

lemma cadeia_caminho {mapa : Mapa} {partida : Pos} {no : NoNavegacao}
    (h : CadeiaOk mapa partida no) : Caminho mapa partida no.posicao no.custo_g := by
  induction h with
  | base h f hlivre => exact .base hlivre
  | passo p h f pai hpai hviz ih => exact .passo ih hviz

lemma cadeia_livre {mapa : Mapa} {partida : Pos} {no : NoNavegacao}
    (h : CadeiaOk mapa partida no) : Livre mapa no.posicao :=
  caminho_livre_fim (cadeia_caminho h)

lemma cadeiaNo_comprimento {mapa : Mapa} {partida : Pos} {no : NoNavegacao}
    (h : CadeiaOk mapa partida no) : (cadeiaNo no).length = no.custo_g + 1 := by
  induction h with
  | base h f hlivre => simp [cadeiaNo, NoNavegacao.custo_g]
  | passo p h f pai hpai hviz ih =>
    simp only [cadeiaNo, List.length_cons, NoNavegacao.custo_g] at ih ⊢
    omega

lemma cadeiaNo_ne_nil (no : NoNavegacao) : cadeiaNo no ≠ [] := by
  cases no with
  | mk p g h f pai => cases pai <;> simp [cadeiaNo]

lemma cadeiaNo_cabeca (no : NoNavegacao) : (cadeiaNo no).head? = some no.posicao := by
  cases no with
  | mk p g h f pai => cases pai <;> simp [cadeiaNo, NoNavegacao.posicao]

lemma cadeiaNo_ultimo {mapa : Mapa} {partida : Pos} {no : NoNavegacao}
    (h : CadeiaOk mapa partida no) : (cadeiaNo no).getLast? = some partida := by
  induction h with
  | base h f hlivre => simp [cadeiaNo]
  | passo p h f pai hpai hviz ih =>
    have hc : cadeiaNo (.mk p (pai.custo_g + 1) h f (some pai)) = p :: cadeiaNo pai := rfl
    obtain ⟨x, xs, hx⟩ := List.exists_cons_of_ne_nil (cadeiaNo_ne_nil pai)
    rw [hc, hx, List.getLast?_cons_cons, ← hx, ih]

lemma reconstruir_comprimento {mapa : Mapa} {partida : Pos} {no : NoNavegacao}
    (h : CadeiaOk mapa partida no) :
    (reconstruir_caminho_otimo no).length = no.custo_g + 1 := by
  simp [reconstruir_caminho_otimo, cadeiaNo_comprimento h]

lemma reconstruir_cabeca {mapa : Mapa} {partida : Pos} {no : NoNavegacao}
    (h : CadeiaOk mapa partida no) :
    (reconstruir_caminho_otimo no).head? = some partida := by
  rw [reconstruir_caminho_otimo, List.head?_reverse, cadeiaNo_ultimo h]

lemma reconstruir_ultimo (no : NoNavegacao) :
    (reconstruir_caminho_otimo no).getLast? = some no.posicao := by
  rw [reconstruir_caminho_otimo, List.getLast?_reverse, cadeiaNo_cabeca no]

lemma fronteiraAlcanca {mapa : Mapa} {partida objetivo : Pos} {fila : List NoNavegacao}
    {visitados abertos : List Pos}
    (inv : InvAstar mapa partida objetivo fila visitados abertos) :
    ∀ d q, MenorDistancia mapa partida q d → q ∉ visitados →
      ∃ nw ∈ fila, nw.custo_g + calcular_distancia_manhattan nw.posicao q ≤ d := by
  intro d
  induction d using Nat.strong_induction_on with
  | _ d ih =>
    intro q hq hqv
    match d with
    | 0 =>
      obtain ⟨hpq, hlivre⟩ := caminho_zero hq.1
      subst hpq
      rcases inv.partidaPresente with hvis | ⟨nw, hnw, hpos⟩
      · exact absurd hvis hqv
      · refine ⟨nw, hnw, ?_⟩
        rw [inv.partidaG nw hnw hpos, hpos, manhattan_auto]
    | d + 1 =>
      obtain ⟨p, hp, hqviz⟩ := caminho_sucessor hq.1
      obtain ⟨dp, hdp⟩ := existe_menor_distancia ⟨d, hp⟩
      have hdpd : dp ≤ d := hdp.2 d hp
      by_cases hpv : p ∈ visitados
      · rcases inv.fechado p hpv q hqviz with hqvis | ⟨nw, hnw, hpos⟩
        · exact absurd hqvis hqv
        · refine ⟨nw, hnw, ?_⟩
          have hb := inv.cotaFronteira nw hnw p hpv (by rw [hpos]; exact hqviz) dp hdp
          rw [hpos, manhattan_auto]
          omega
      · obtain ⟨nw, hnw, hbound⟩ := ih dp (by omega) p hdp hpv
        refine ⟨nw, hnw, ?_⟩
        have ht := manhattan_triangulo nw.posicao p q
        have h1 := manhattan_vizinho hqviz
        omega

lemma pop_g_otimo {mapa : Mapa} {partida objetivo : Pos} {n : NoNavegacao}
    {resto : List NoNavegacao} {visitados abertos : List Pos}
    (inv : InvAstar mapa partida objetivo (n :: resto) visitados abertos) :
    MenorDistancia mapa partida (popMinAux n resto).1.posicao
      (popMinAux n resto).1.custo_g := by
  have hmem : (popMinAux n resto).1 ∈ n :: resto := popMinAux_mem n resto
  have hbom := inv.nosBons _ hmem
  have hcam := cadeia_caminho hbom.1
  obtain ⟨dmin, hdmin⟩ := existe_menor_distancia ⟨_, hcam⟩
  have hd_le : dmin ≤ (popMinAux n resto).1.custo_g := hdmin.2 _ hcam
  have hnv : (popMinAux n resto).1.posicao ∉ visitados := inv.naoVisitados _ hmem
  obtain ⟨nw, hnw, hbound⟩ := fronteiraAlcanca inv dmin _ hdmin hnv
  have hbw := inv.nosBons nw hnw
  have hmin := popMinAux_min n resto nw hnw
  have hfna := hbom.2.2
  have hha := hbom.2.1
  have hfnw := hbw.2.2
  have hhw := hbw.2.1
  have ht := manhattan_triangulo nw.posicao (popMinAux n resto).1.posicao objetivo
  have hgle : (popMinAux n resto).1.custo_g ≤ dmin := by omega
  have heq : dmin = (popMinAux n resto).1.custo_g := le_antisymm hd_le hgle
  rw [← heq]
  exact hdmin

@[simp] lemma posicao_mk (p : Pos) (g h f : Nat) (pai : Option NoNavegacao) :
    (NoNavegacao.mk p g h f pai).posicao = p := rfl

@[simp] lemma custo_g_mk (p : Pos) (g h f : Nat) (pai : Option NoNavegacao) :
    (NoNavegacao.mk p g h f pai).custo_g = g := rfl

@[simp] lemma custo_h_mk (p : Pos) (g h f : Nat) (pai : Option NoNavegacao) :
    (NoNavegacao.mk p g h f pai).custo_h = h := rfl

@[simp] lemma custo_f_mk (p : Pos) (g h f : Nat) (pai : Option NoNavegacao) :
    (NoNavegacao.mk p g h f pai).custo_f = f := rfl

lemma existe_pos_iff (l : List NoNavegacao) (p : Pos) :
    (∃ no ∈ l, no.posicao = p) ↔ p ∈ l.map NoNavegacao.posicao := by
  simp [List.mem_map]

lemma expandirVizinhos_spec {mapa : Mapa} {partida objetivo : Pos} {visAnt : List Pos}
    {no_atual : NoNavegacao} (hbom : NoBom mapa partida objetivo no_atual) :
    ∀ (vs : List Pos) (fila : List NoNavegacao) (abertos : List Pos),
      (∀ q ∈ vs, q ∈ obter_vizinhos_validos no_atual.posicao mapa) →
      MidInvAstar mapa partida objetivo visAnt (no_atual.posicao :: visAnt) fila abertos →
      MidInvAstar mapa partida objetivo visAnt (no_atual.posicao :: visAnt)
          (expandirVizinhos objetivo no_atual vs fila (no_atual.posicao :: visAnt) abertos).1
          (expandirVizinhos objetivo no_atual vs fila (no_atual.posicao :: visAnt) abertos).2 ∧
        (∀ no ∈ fila,
          ∃ no2 ∈ (expandirVizinhos objetivo no_atual vs fila
              (no_atual.posicao :: visAnt) abertos).1,
            no2.posicao = no.posicao ∧ no2.custo_g ≤ no.custo_g) ∧
        (∀ q ∈ vs, q ∈ no_atual.posicao :: visAnt ∨
          ∃ no2 ∈ (expandirVizinhos objetivo no_atual vs fila
              (no_atual.posicao :: visAnt) abertos).1,
            no2.posicao = q ∧ no2.custo_g ≤ no_atual.custo_g + 1) := by
  intro vs
  induction vs with
  | nil =>
    intro fila abertos hvs hmid
    refine ⟨hmid, ?_, ?_⟩
    · intro no hno
      exact ⟨no, hno, rfl, le_refl _⟩
    · intro q hq
      simp at hq
  | cons q resto ih =>
    intro fila abertos hvs hmid
    have hq : q ∈ obter_vizinhos_validos no_atual.posicao mapa :=
      hvs q (List.mem_cons_self _ _)
    have hresto : ∀ q2 ∈ resto, q2 ∈ obter_vizinhos_validos no_atual.posicao mapa :=
      fun q2 hq2 => hvs q2 (List.mem_cons_of_mem _ hq2)
    simp only [expandirVizinhos]
    by_cases hqv : q ∈ no_atual.posicao :: visAnt
    · rw [if_pos hqv]
      obtain ⟨hmid2, hsur, hcov⟩ := ih fila abertos hresto hmid
      refine ⟨hmid2, hsur, ?_⟩
      intro q2 hq2
      rcases List.mem_cons.1 hq2 with h1 | h1
      · exact Or.inl (h1 ▸ hqv)
      · exact hcov q2 h1
    · rw [if_neg hqv]
      by_cases hqab : q ∈ abertos
      · rw [if_pos hqab]
        -- relaxation of the already-open node at q
        set g1 := no_atual.custo_g + 1 with hg1
        set rel := fun no : NoNavegacao =>
          if no.posicao = q ∧ g1 < no.custo_g then
            NoNavegacao.mk q g1 no.custo_h (g1 + calcular_distancia_manhattan q objetivo)
              (some no_atual)
          else no with hrel
        have hrelPos : ∀ no : NoNavegacao, (rel no).posicao = no.posicao := by
          intro no
          rw [hrel]
          dsimp only
          split
          · rename_i hc
            simp [hc.1]
          · rfl
        have hrelG : ∀ no : NoNavegacao, (rel no).custo_g ≤ no.custo_g := by
          intro no
          rw [hrel]
          dsimp only
          split
          · rename_i hc
            simp only [custo_g_mk]
            omega
          · exact le_refl _
        have hposEq : (fila.map rel).map NoNavegacao.posicao = fila.map NoNavegacao.posicao := by
          rw [List.map_map]
          exact List.map_congr_left (fun no _ => hrelPos no)
        have hmid2 : MidInvAstar mapa partida objetivo visAnt (no_atual.posicao :: visAnt)
            (fila.map rel) abertos := by
          constructor
          · intro no2 hno2
            obtain ⟨no, hno, hre⟩ := List.mem_map.1 hno2
            subst hre
            rw [hrel]
            dsimp only
            split
            · rename_i hc
              have hb := hmid.nosBons no hno
              refine ⟨CadeiaOk.passo q no.custo_h _ no_atual hbom.1 hq, ?_, ?_⟩
              · simp only [custo_h_mk, posicao_mk]
                rw [hb.2.1, hc.1]
              · simp only [custo_f_mk, custo_g_mk, custo_h_mk]
                rw [hb.2.1, hc.1]
            · exact hmid.nosBons no hno
          · rw [hposEq]
            exact hmid.posNodup
          · exact hmid.abertosNodup
          · intro p
            rw [existe_pos_iff, hposEq, ← existe_pos_iff]
            exact hmid.abertosIff p
          · intro no2 hno2
            obtain ⟨no, hno, hre⟩ := List.mem_map.1 hno2
            subst hre
            rw [hrelPos]
            exact hmid.naoVisitados no hno
          · exact hmid.partidaPresente
          · intro no2 hno2 hp
            obtain ⟨no, hno, hre⟩ := List.mem_map.1 hno2
            subst hre
            rw [hrelPos] at hp
            have h0 := hmid.partidaG no hno hp
            rw [hrel]
            dsimp only
            split
            · rename_i hc
              rw [h0] at hc
              omega
            · exact h0
          · exact hmid.fechadoAb
          · intro no2 hno2 v hv hadj d hd
            obtain ⟨no, hno, hre⟩ := List.mem_map.1 hno2
            subst hre
            rw [hrelPos] at hadj
            have hc0 := hmid.cotaFronteira no hno v hv hadj d hd
            calc (rel no).custo_g ≤ no.custo_g := hrelG no
              _ ≤ d + 1 := hc0
        obtain ⟨hmid3, hsur, hcov⟩ := ih (fila.map rel) abertos hresto hmid2
        refine ⟨hmid3, ?_, ?_⟩
        · intro no hno
          obtain ⟨no3, hno3, hpos3, hg3⟩ := hsur (rel no) (List.mem_map_of_mem rel hno)
          exact ⟨no3, hno3, hpos3.trans (hrelPos no), le_trans hg3 (hrelG no)⟩
        · intro q2 hq2
          rcases List.mem_cons.1 hq2 with h1 | h1
          · subst h1
            right
            obtain ⟨no, hno, hnopos⟩ := (hmid.abertosIff q2).1 hqab
            have hrelno : (rel no).posicao = q2 ∧ (rel no).custo_g ≤ no_atual.custo_g + 1 := by
              rw [hrel]
              dsimp only
              split
              · rename_i hc
                exact ⟨rfl, le_refl _⟩
              · rename_i hc
                rw [hnopos] at hc ⊢
                simp only [true_and, not_lt] at hc
                exact ⟨rfl, hc⟩
            obtain ⟨no3, hno3, hpos3, hg3⟩ := hsur (rel no) (List.mem_map_of_mem rel hno)
            exact ⟨no3, hno3, hpos3.trans hrelno.1, le_trans hg3 hrelno.2⟩
          · exact hcov q2 h1
      · rw [if_neg hqab]
        -- push of a fresh node at q
        set novo := NoNavegacao.mk q (no_atual.custo_g + 1)
          (calcular_distancia_manhattan q objetivo)
          (no_atual.custo_g + 1 + calcular_distancia_manhattan q objetivo)
          (some no_atual) with hnovo
        have hqfila : q ∉ fila.map NoNavegacao.posicao := by
          rw [← existe_pos_iff]
          intro hex
          exact hqab ((hmid.abertosIff q).2 hex)
        have hmid2 : MidInvAstar mapa partida objetivo visAnt (no_atual.posicao :: visAnt)
            (fila ++ [novo]) (q :: abertos) := by
          constructor
          · intro no2 hno2
            rcases List.mem_append.1 hno2 with h1 | h1
            · exact hmid.nosBons no2 h1
            · rw [List.mem_singleton.1 h1, hnovo]
              exact ⟨CadeiaOk.passo q _ _ no_atual hbom.1 hq, by simp, by simp⟩
          · rw [List.map_append]
            refine List.Nodup.append hmid.posNodup (by simp) ?_
            intro x hx hx2
            simp only [List.map_cons, List.map_nil, List.mem_singleton, hnovo,
              posicao_mk] at hx2
            exact hqfila (hx2 ▸ hx)
          · exact List.nodup_cons.2 ⟨hqab, hmid.abertosNodup⟩
          · intro p
            constructor
            · intro h1
              rcases List.mem_cons.1 h1 with h2 | h2
              · refine ⟨novo, List.mem_append_right _ (List.mem_singleton.2 rfl), ?_⟩
                rw [hnovo, h2, posicao_mk]
              · obtain ⟨no, hno, hp⟩ := (hmid.abertosIff p).1 h2
                exact ⟨no, List.mem_append_left _ hno, hp⟩
            · rintro ⟨no, hno, hp⟩
              rcases List.mem_append.1 hno with h2 | h2
              · exact List.mem_cons_of_mem _ ((hmid.abertosIff p).2 ⟨no, h2, hp⟩)
              · rw [List.mem_singleton.1 h2, hnovo] at hp
                simp only [posicao_mk] at hp
                rw [← hp]
                exact List.mem_cons_self _ _
          · intro no2 hno2
            rcases List.mem_append.1 hno2 with h1 | h1
            · exact hmid.naoVisitados no2 h1
            · rw [List.mem_singleton.1 h1, hnovo]
              exact hqv
          · rcases hmid.partidaPresente with h1 | h1
            · exact Or.inl h1
            · exact Or.inr (List.mem_cons_of_mem _ h1)
          · intro no2 hno2 hp
            rcases List.mem_append.1 hno2 with h1 | h1
            · exact hmid.partidaG no2 h1 hp
            · rw [List.mem_singleton.1 h1, hnovo] at hp
              simp only [posicao_mk] at hp
              subst hp
              rcases hmid.partidaPresente with h2 | h2
              · exact absurd h2 hqv
              · exact absurd h2 hqab
          · intro v hv q2 hq2
            rcases hmid.fechadoAb v hv q2 hq2 with h1 | h1
            · exact Or.inl h1
            · exact Or.inr (List.mem_cons_of_mem _ h1)
          · intro no2 hno2 v hv hadj d hd
            rcases List.mem_append.1 hno2 with h1 | h1
            · exact hmid.cotaFronteira no2 h1 v hv hadj d hd
            · rw [List.mem_singleton.1 h1, hnovo] at hadj ⊢
              simp only [posicao_mk] at hadj
              rcases hmid.fechadoAb v hv q hadj with h2 | h2
              · exact absurd h2 hqv
              · exact absurd h2 hqab
        obtain ⟨hmid3, hsur, hcov⟩ := ih (fila ++ [novo]) (q :: abertos) hresto hmid2
        refine ⟨hmid3, ?_, ?_⟩
        · intro no hno
          exact hsur no (List.mem_append_left _ hno)
        · intro q2 hq2
          rcases List.mem_cons.1 hq2 with h1 | h1
          · subst h1
            right
            obtain ⟨no3, hno3, hpos3, hg3⟩ :=
              hsur novo (List.mem_append_right _ (List.mem_singleton.2 rfl))
            exact ⟨no3, hno3, by rw [hpos3, hnovo, posicao_mk],
              le_trans hg3 (by rw [hnovo, custo_g_mk])⟩
          · exact hcov q2 h1

lemma passo_preserva {mapa : Mapa} {partida objetivo : Pos} {n : NoNavegacao}
    {resto : List NoNavegacao} {visitados abertos : List Pos}
    (inv : InvAstar mapa partida objetivo (n :: resto) visitados abertos)
    (hng : (popMinAux n resto).1.posicao ≠ objetivo) :
    InvAstar mapa partida objetivo
      (expandirVizinhos objetivo (popMinAux n resto).1
        (obter_vizinhos_validos (popMinAux n resto).1.posicao mapa)
        (popMinAux n resto).2 ((popMinAux n resto).1.posicao :: visitados)
        (abertos.erase (popMinAux n resto).1.posicao)).1
      ((popMinAux n resto).1.posicao :: visitados)
      (expandirVizinhos objetivo (popMinAux n resto).1
        (obter_vizinhos_validos (popMinAux n resto).1.posicao mapa)
        (popMinAux n resto).2 ((popMinAux n resto).1.posicao :: visitados)
        (abertos.erase (popMinAux n resto).1.posicao)).2 := by
  have hperm := popMinAux_perm n resto
  have hmem : (popMinAux n resto).1 ∈ n :: resto := popMinAux_mem n resto
  have hbomAtual := inv.nosBons _ hmem
  have hminAtual := pop_g_otimo inv
  have hsub : ∀ x ∈ (popMinAux n resto).2, x ∈ n :: resto :=
    fun x hx => hperm.mem_iff.1 (List.mem_cons_of_mem _ hx)
  have hnodup1 : (((popMinAux n resto).1 :: (popMinAux n resto).2).map
      NoNavegacao.posicao).Nodup :=
    ((hperm.map NoNavegacao.posicao).nodup_iff).2 inv.posNodup
  have hnaNotIn : (popMinAux n resto).1.posicao ∉
      ((popMinAux n resto).2.map NoNavegacao.posicao) := (List.nodup_cons.1 hnodup1).1
  have hnodup2 : ((popMinAux n resto).2.map NoNavegacao.posicao).Nodup :=
    (List.nodup_cons.1 hnodup1).2
  have habIff : ∀ p : Pos, p ∈ abertos.erase (popMinAux n resto).1.posicao ↔
      ∃ x ∈ (popMinAux n resto).2, x.posicao = p := by
    intro p
    rw [inv.abertosNodup.mem_erase_iff]
    constructor
    · rintro ⟨hne, hp⟩
      obtain ⟨x, hx, hxp⟩ := (inv.abertosIff p).1 hp
      have hx2 : x ∈ (popMinAux n resto).1 :: (popMinAux n resto).2 := hperm.mem_iff.2 hx
      rcases List.mem_cons.1 hx2 with h1 | h1
      · exact absurd (h1 ▸ hxp : (popMinAux n resto).1.posicao = p) (fun h => hne h.symm)
      · exact ⟨x, h1, hxp⟩
    · rintro ⟨x, hx, hxp⟩
      refine ⟨?_, (inv.abertosIff p).2 ⟨x, hsub x hx, hxp⟩⟩
      intro hpe
      exact hnaNotIn (hpe ▸ hxp ▸ List.mem_map_of_mem NoNavegacao.posicao hx)
  have hmid : MidInvAstar mapa partida objetivo visitados
      ((popMinAux n resto).1.posicao :: visitados) (popMinAux n resto).2
      (abertos.erase (popMinAux n resto).1.posicao) := by
    constructor
    · exact fun x hx => inv.nosBons x (hsub x hx)
    · exact hnodup2
    · exact inv.abertosNodup.erase _
    · exact habIff
    · intro x hx
      rw [List.mem_cons]
      rintro (h1 | h1)
      · exact hnaNotIn (h1 ▸ List.mem_map_of_mem NoNavegacao.posicao hx)
      · exact inv.naoVisitados x (hsub x hx) h1
    · rcases inv.partidaPresente with h1 | ⟨no, hno, hp⟩
      · exact Or.inl (List.mem_cons_of_mem _ h1)
      · have hno2 : no ∈ (popMinAux n resto).1 :: (popMinAux n resto).2 :=
          hperm.mem_iff.2 hno
        rcases List.mem_cons.1 hno2 with h2 | h2
        · exact Or.inl (by rw [← hp, ← h2]; exact List.mem_cons_self _ _)
        · exact Or.inr ((habIff partida).2 ⟨no, h2, hp⟩)
    · exact fun x hx hp => inv.partidaG x (hsub x hx) hp
    · intro v hv q hq
      rcases inv.fechado v hv q hq with h1 | ⟨no, hno, hp⟩
      · exact Or.inl (List.mem_cons_of_mem _ h1)
      · have hno2 : no ∈ (popMinAux n resto).1 :: (popMinAux n resto).2 :=
          hperm.mem_iff.2 hno
        rcases List.mem_cons.1 hno2 with h2 | h2
        · exact Or.inl (by rw [← hp, ← h2]; exact List.mem_cons_self _ _)
        · exact Or.inr ((habIff q).2 ⟨no, h2, hp⟩)
    · exact fun x hx v hv hadj d hd => inv.cotaFronteira x (hsub x hx) v hv hadj d hd
  obtain ⟨hmidF, hsur, hcov⟩ := expandirVizinhos_spec hbomAtual
    (obter_vizinhos_validos (popMinAux n resto).1.posicao mapa)
    (popMinAux n resto).2 (abertos.erase (popMinAux n resto).1.posicao)
    (fun q hq => hq) hmid
  constructor
  · exact hmidF.nosBons
  · exact hmidF.posNodup
  · exact hmidF.abertosNodup
  · exact hmidF.abertosIff
  · exact hmidF.naoVisitados
  · intro v hv
    rcases List.mem_cons.1 hv with h1 | h1
    · exact h1 ▸ cadeia_livre hbomAtual.1
    · exact inv.visLivres v h1
  · intro v hv
    rcases List.mem_cons.1 hv with h1 | h1
    · exact ⟨_, h1 ▸ cadeia_caminho hbomAtual.1⟩
    · exact inv.visAlcancaveis v h1
  · rcases hmidF.partidaPresente with h1 | h1
    · exact Or.inl h1
    · exact Or.inr ((hmidF.abertosIff partida).1 h1)
  · exact hmidF.partidaG
  · rw [List.mem_cons]
    rintro (h1 | h1)
    · exact hng h1.symm
    · exact inv.objetivoNaoVisitado h1
  · intro v hv q hq
    rcases List.mem_cons.1 hv with h1 | h1
    · rcases hcov q (h1 ▸ hq) with h2 | ⟨no2, hno2, hp2, hg2⟩
      · exact Or.inl h2
      · exact Or.inr ⟨no2, hno2, hp2⟩
    · rcases hmidF.fechadoAb v h1 q hq with h2 | h2
      · exact Or.inl h2
      · exact Or.inr ((hmidF.abertosIff q).1 h2)
  · intro no hno v hv hadj d hd
    rcases List.mem_cons.1 hv with h1 | h1
    · subst h1
      have hdg : d = (popMinAux n resto).1.custo_g := menor_distancia_unica hd hminAtual
      rcases hcov no.posicao hadj with h2 | ⟨no2, hno2, hp2, hg2⟩
      · exact absurd h2 (hmidF.naoVisitados no hno)
      · have heq : no2 = no := by
          have hinj := List.inj_on_of_nodup_map hmidF.posNodup
          exact hinj hno2 hno hp2
        rw [← heq, hdg]
        exact hg2
    · exact hmidF.cotaFronteira no hno v h1 hadj d hd

lemma countP_cons_vis (l : List Pos) (p : Pos) (vis : List Pos) (hp : p ∉ vis) :
    l.countP (fun x => decide (x ∉ p :: vis)) + l.count p =
      l.countP (fun x => decide (x ∉ vis)) := by
  induction l with
  | nil => simp
  | cons y ys ih =>
    rw [List.countP_cons, List.countP_cons, List.count_cons]
    by_cases hyp : y = p
    · subst hyp
      have h1 : (decide (y ∉ y :: vis) : Bool) = false := by simp
      have h2 : (decide (y ∉ vis) : Bool) = true := by simpa using hp
      rw [h1, h2, beq_self_eq_true]
      simp only [Bool.false_eq_true, if_false, if_true]
      omega
    · have h4 : (decide (y ∉ p :: vis) : Bool) = decide (y ∉ vis) := by
        simp only [decide_eq_decide]
        simp [List.mem_cons, hyp]
      have h5 : (y == p) = false := by simpa using hyp
      rw [h4, h5]
      simp only [Bool.false_eq_true, if_false]
      omega

lemma contagem_decresce {mapa : Mapa} {vis : List Pos} {p : Pos}
    (hmem : p ∈ posicoesDoMapa mapa) (hp : p ∉ vis) :
    contagemRestante mapa (p :: vis) < contagemRestante mapa vis := by
  unfold contagemRestante
  have h := countP_cons_vis (posicoesDoMapa mapa) p vis hp
  have hc : 0 < (posicoesDoMapa mapa).count p := List.count_pos_iff.2 hmem
  omega

lemma livre_mem_posicoes {mapa : Mapa} {p : Pos} (h : Livre mapa p) :
    p ∈ posicoesDoMapa mapa := by
  obtain ⟨h1, h2, h3, h4, h5⟩ := h
  unfold posicoesDoMapa
  rw [List.mem_flatMap]
  refine ⟨p.1.toNat, by rw [List.mem_range]; omega, ?_⟩
  rw [List.mem_map]
  refine ⟨p.2.toNat, by rw [List.mem_range]; omega, ?_⟩
  have hp1 : Int.ofNat p.1.toNat = p.1 := Int.toNat_of_nonneg h1
  have hp2 : Int.ofNat p.2.toNat = p.2 := Int.toNat_of_nonneg h3
  rw [hp1, hp2]

lemma posicoesDoMapa_comprimento (mapa : Mapa) :
    (posicoesDoMapa mapa).length = mapa.length * (mapa.headD []).length := by
  unfold posicoesDoMapa
  rw [List.length_flatMap]
  have h : List.map (List.length ∘ fun i =>
      (List.range (mapa.headD []).length).map (fun j => (Int.ofNat i, Int.ofNat j)))
      (List.range mapa.length)
      = List.map (fun _ => (mapa.headD []).length) (List.range mapa.length) :=
    List.map_congr_left (fun x _ => by simp)
  rw [h]
  simp [List.map_const']

lemma astarLoop_correta {mapa : Mapa} {partida objetivo : Pos} :
    ∀ (fuel : Nat) (fila : List NoNavegacao) (visitados abertos : List Pos),
      InvAstar mapa partida objetivo fila visitados abertos →
      contagemRestante mapa visitados < fuel →
      ∃ r, astarLoop mapa objetivo fuel fila visitados abertos = some r ∧
        ((r = none ∧ ∀ d, ¬ Caminho mapa partida objetivo d) ∨
          ∃ caminho d, r = some caminho ∧ MenorDistancia mapa partida objetivo d ∧
            caminho.length = d + 1 ∧ caminho.head? = some partida ∧
            caminho.getLast? = some objetivo) := by
  intro fuel
  induction fuel with
  | zero =>
    intro fila visitados abertos _ hcount
    omega
  | succ fuel ih =>
    intro fila visitados abertos inv hcount
    cases fila with
    | nil =>
      refine ⟨none, rfl, Or.inl ⟨rfl, ?_⟩⟩
      intro d hd
      obtain ⟨dm, hdm⟩ := existe_menor_distancia ⟨d, hd⟩
      obtain ⟨nw, hnw, -⟩ := fronteiraAlcanca inv dm objetivo hdm inv.objetivoNaoVisitado
      exact absurd hnw (List.not_mem_nil nw)
    | cons n resto =>
      by_cases hgoal : (popMinAux n resto).1.posicao = objetivo
      · have hbom := inv.nosBons _ (popMinAux_mem n resto)
        have hmin := pop_g_otimo inv
        refine ⟨some (reconstruir_caminho_otimo (popMinAux n resto).1), ?_,
          Or.inr ⟨_, (popMinAux n resto).1.custo_g, rfl, hgoal ▸ hmin,
            reconstruir_comprimento hbom.1, reconstruir_cabeca hbom.1, ?_⟩⟩
        · simp only [astarLoop]
          rw [if_pos hgoal]
        · rw [reconstruir_ultimo, hgoal]
      · have inv2 := passo_preserva inv hgoal
        have hlivre : Livre mapa (popMinAux n resto).1.posicao :=
          cadeia_livre (inv.nosBons _ (popMinAux_mem n resto)).1
        have hnv : (popMinAux n resto).1.posicao ∉ visitados :=
          inv.naoVisitados _ (popMinAux_mem n resto)
        have hdec := contagem_decresce (livre_mem_posicoes hlivre) hnv
        obtain ⟨r, hr, hprop⟩ := ih _ _ _ inv2 (by omega)
        refine ⟨r, ?_, hprop⟩
        simp only [astarLoop]
        rw [if_neg hgoal]
        exact hr

/-- C1: for every rectangular grid and non-wall in-bounds start and goal,
`algoritmo_busca_astar` returns `Some` path whose length (in positions)
is one more than the true shortest 4-connected path length whenever the
goal is reachable from the start, and it returns `None` if and only if
the goal is not reachable from the start through open cells. -/
theorem astar_caminho_otimo_completo (mapa : Mapa) (partida objetivo : Pos)
    (_hrect : Retangular mapa) (hpart : Livre mapa partida) (hobj : Livre mapa objetivo) :
    ((∃ d, Caminho mapa partida objetivo d) →
      ∃ caminho d, algoritmo_busca_astar mapa partida objetivo = .ok (some caminho) ∧
        MenorDistancia mapa partida objetivo d ∧ caminho.length = d + 1 ∧
        caminho.head? = some partida ∧ caminho.getLast? = some objetivo) ∧
    (algoritmo_busca_astar mapa partida objetivo = .ok none ↔
      ¬ ∃ d, Caminho mapa partida objetivo d) := by
  have hc1 : ¬(mapa.length = 0 ∨ (mapa.headD []).length = 0) := by
    obtain ⟨hp1, hp2, hp3, hp4, hp5⟩ := hpart
    rintro (h | h) <;> omega
  have hc2 : ¬(partida.1 < 0 ∨ (mapa.length : Int) ≤ partida.1 ∨ partida.2 < 0 ∨
      ((mapa.headD []).length : Int) ≤ partida.2) := by
    obtain ⟨hp1, hp2, hp3, hp4, hp5⟩ := hpart
    rintro (h | h | h | h) <;> omega
  have hc3 : ¬(objetivo.1 < 0 ∨ (mapa.length : Int) ≤ objetivo.1 ∨ objetivo.2 < 0 ∨
      ((mapa.headD []).length : Int) ≤ objetivo.2) := by
    obtain ⟨ho1, ho2, ho3, ho4, ho5⟩ := hobj
    rintro (h | h | h | h) <;> omega
  have hc4 : ¬(celula mapa partida = '*') := hpart.2.2.2.2
  have hc5 : ¬(celula mapa objetivo = '*') := hobj.2.2.2.2
  unfold algoritmo_busca_astar
  rw [if_neg hc1, if_neg hc2, if_neg hc3, if_neg hc4, if_neg hc5]
  by_cases heq : partida = objetivo
  · rw [if_pos heq]
    constructor
    · intro _
      refine ⟨[partida], 0, rfl, ⟨heq ▸ Caminho.base hpart, fun d2 _ => Nat.zero_le _⟩,
        by simp, by simp, by simp [heq]⟩
    · constructor
      · intro h
        simp at h
      · intro hnr
        exact absurd ⟨0, heq ▸ Caminho.base hpart⟩ hnr
  · rw [if_neg heq]
    simp only []
    have inv0 : InvAstar mapa partida objetivo
        [NoNavegacao.mk partida 0 (calcular_distancia_manhattan partida objetivo)
          (calcular_distancia_manhattan partida objetivo) none] [] [partida] := by
      constructor
      · intro no hno
        rw [List.mem_singleton.1 hno]
        exact ⟨CadeiaOk.base _ _ hpart, rfl, by simp⟩
      · simp
      · simp
      · intro p
        simp only [List.mem_singleton]
        constructor
        · intro h
          exact ⟨_, rfl, h.symm⟩
        · rintro ⟨no, hno, hp⟩
          rw [hno] at hp
          exact hp.symm
      · intro no _
        exact List.not_mem_nil _
      · intro v hv
        exact absurd hv (List.not_mem_nil v)
      · intro v hv
        exact absurd hv (List.not_mem_nil v)
      · exact Or.inr ⟨_, List.mem_singleton.2 rfl, rfl⟩
      · intro no hno _
        rw [List.mem_singleton.1 hno]
        rfl
      · exact List.not_mem_nil _
      · intro v hv
        exact absurd hv (List.not_mem_nil v)
      · intro no _ v hv
        exact absurd hv (List.not_mem_nil v)
    have hcount : contagemRestante mapa [] < mapa.length * (mapa.headD []).length + 1 := by
      have h1 : contagemRestante mapa [] ≤ (posicoesDoMapa mapa).length :=
        List.countP_le_length _
      have h2 := posicoesDoMapa_comprimento mapa
      omega
    obtain ⟨r, hr, hprop⟩ := astarLoop_correta
      (mapa.length * (mapa.headD []).length + 1) _ [] [partida] inv0 hcount
    rw [hr]
    simp only [Option.getD_some]
    constructor
    · intro hreach
      rcases hprop with ⟨hrn, hnot⟩ | ⟨caminho, d, hrc, hmd, hlen, hh, hl⟩
      · obtain ⟨d, hd⟩ := hreach
        exact absurd hd (hnot d)
      · exact ⟨caminho, d, by rw [hrc], hmd, hlen, hh, hl⟩
    · constructor
      · intro h
        rcases hprop with ⟨hrn, hnot⟩ | ⟨caminho, d, hrc, hmd, hlen, hh, hl⟩
        · rintro ⟨d, hd⟩
          exact hnot d hd
        · rw [hrc] at h
          simp at h
      · intro hnr
        rcases hprop with ⟨hrn, hnot⟩ | ⟨caminho, d, hrc, hmd, hlen, hh, hl⟩
        · rw [hrn]
        · exact absurd ⟨d, hmd.1⟩ hnr

/-- Concrete instantiation of `astar_caminho_otimo_completo` on the 2×2
grid with a wall at (1,0), start (0,0) and goal (1,1). -/
theorem astar_caminho_otimo_completo_witness :
    Retangular [[' ', ' '], ['*', ' ']] ∧
      Livre [[' ', ' '], ['*', ' ']] (0, 0) ∧ Livre [[' ', ' '], ['*', ' ']] (1, 1) ∧
      (∃ caminho d, algoritmo_busca_astar [[' ', ' '], ['*', ' ']] (0, 0) (1, 1) =
          .ok (some caminho) ∧
        MenorDistancia [[' ', ' '], ['*', ' ']] (0, 0) (1, 1) d ∧ caminho.length = d + 1 ∧
        caminho.head? = some (0, 0) ∧ caminho.getLast? = some (1, 1)) ∧
      (algoritmo_busca_astar [[' ', ' '], ['*', ' ']] (0, 0) (1, 1) = .ok none ↔
        ¬ ∃ d, Caminho [[' ', ' '], ['*', ' ']] (0, 0) (1, 1) d) :=
  ⟨by decide, by decide, by decide,
    (astar_caminho_otimo_completo [[' ', ' '], ['*', ' ']] (0, 0) (1, 1)
      (by decide) (by decide) (by decide)).1
      ⟨2, @Caminho.passo [[' ', ' '], ['*', ' ']] (0, 0) (0, 1) (1, 1) 1
        (@Caminho.passo [[' ', ' '], ['*', ' ']] (0, 0) (0, 0) (0, 1) 0
          (Caminho.base (by decide)) (by decide))
        (by decide)⟩,
    (astar_caminho_otimo_completo [[' ', ' '], ['*', ' ']] (0, 0) (1, 1)
      (by decide) (by decide) (by decide)).2⟩

/-- C7: each of the five precondition failures of `algoritmo_busca_astar`
— empty map, start out of bounds, goal out of bounds, start a wall, goal
a wall — raises its own distinct error carrying the offending coordinate,
in the order the Python code checks them and before any search state is
built. -/
theorem astar_validacoes_distintas (mapa : Mapa) (posicao_inicial posicao_objetivo : Pos) :
    ((mapa.length = 0 ∨ (mapa.headD []).length = 0) →
      algoritmo_busca_astar mapa posicao_inicial posicao_objetivo = .error .mapaNulo) ∧
    (¬(mapa.length = 0 ∨ (mapa.headD []).length = 0) →
      (posicao_inicial.1 < 0 ∨ (mapa.length : Int) ≤ posicao_inicial.1 ∨
        posicao_inicial.2 < 0 ∨ ((mapa.headD []).length : Int) ≤ posicao_inicial.2) →
      algoritmo_busca_astar mapa posicao_inicial posicao_objetivo =
        .error (.posicaoInicialInvalida posicao_inicial)) ∧
    (¬(mapa.length = 0 ∨ (mapa.headD []).length = 0) →
      ¬(posicao_inicial.1 < 0 ∨ (mapa.length : Int) ≤ posicao_inicial.1 ∨
        posicao_inicial.2 < 0 ∨ ((mapa.headD []).length : Int) ≤ posicao_inicial.2) →
      (posicao_objetivo.1 < 0 ∨ (mapa.length : Int) ≤ posicao_objetivo.1 ∨
        posicao_objetivo.2 < 0 ∨ ((mapa.headD []).length : Int) ≤ posicao_objetivo.2) →
      algoritmo_busca_astar mapa posicao_inicial posicao_objetivo =
        .error (.posicaoObjetivoInvalida posicao_objetivo)) ∧
    (¬(mapa.length = 0 ∨ (mapa.headD []).length = 0) →
      ¬(posicao_inicial.1 < 0 ∨ (mapa.length : Int) ≤ posicao_inicial.1 ∨
        posicao_inicial.2 < 0 ∨ ((mapa.headD []).length : Int) ≤ posicao_inicial.2) →
      ¬(posicao_objetivo.1 < 0 ∨ (mapa.length : Int) ≤ posicao_objetivo.1 ∨
        posicao_objetivo.2 < 0 ∨ ((mapa.headD []).length : Int) ≤ posicao_objetivo.2) →
      celula mapa posicao_inicial = '*' →
      algoritmo_busca_astar mapa posicao_inicial posicao_objetivo =
        .error (.posicaoInicialObstaculo posicao_inicial)) ∧
    (¬(mapa.length = 0 ∨ (mapa.headD []).length = 0) →
      ¬(posicao_inicial.1 < 0 ∨ (mapa.length : Int) ≤ posicao_inicial.1 ∨
        posicao_inicial.2 < 0 ∨ ((mapa.headD []).length : Int) ≤ posicao_inicial.2) →
      ¬(posicao_objetivo.1 < 0 ∨ (mapa.length : Int) ≤ posicao_objetivo.1 ∨
        posicao_objetivo.2 < 0 ∨ ((mapa.headD []).length : Int) ≤ posicao_objetivo.2) →
      ¬(celula mapa posicao_inicial = '*') →
      celula mapa posicao_objetivo = '*' →
      algoritmo_busca_astar mapa posicao_inicial posicao_objetivo =
        .error (.posicaoObjetivoObstaculo posicao_objetivo)) := by
  refine ⟨?_, ?_, ?_, ?_, ?_⟩
  · intro h1
    unfold algoritmo_busca_astar
    rw [if_pos h1]
  · intro h1 h2
    unfold algoritmo_busca_astar
    rw [if_neg h1, if_pos h2]
  · intro h1 h2 h3
    unfold algoritmo_busca_astar
    rw [if_neg h1, if_neg h2, if_pos h3]
  · intro h1 h2 h3 h4
    unfold algoritmo_busca_astar
    rw [if_neg h1, if_neg h2, if_neg h3, if_pos h4]
  · intro h1 h2 h3 h4 h5
    unfold algoritmo_busca_astar
    rw [if_neg h1, if_neg h2, if_neg h3, if_neg h4, if_pos h5]

/-- The five validation failures of `algoritmo_busca_astar` at concrete
inputs, each produced through `astar_validacoes_distintas`. -/
theorem astar_validacoes_distintas_witness :
    algoritmo_busca_astar [] (0, 0) (0, 0) = .error .mapaNulo ∧
    algoritmo_busca_astar [[' ', ' ']] (1, 0) (0, 1) =
      .error (.posicaoInicialInvalida (1, 0)) ∧
    algoritmo_busca_astar [[' ', ' ']] (0, 0) (0, 2) =
      .error (.posicaoObjetivoInvalida (0, 2)) ∧
    algoritmo_busca_astar [['*', ' ']] (0, 0) (0, 1) =
      .error (.posicaoInicialObstaculo (0, 0)) ∧
    algoritmo_busca_astar [[' ', '*']] (0, 0) (0, 1) =
      .error (.posicaoObjetivoObstaculo (0, 1)) :=
  ⟨(astar_validacoes_distintas [] (0, 0) (0, 0)).1 (by decide),
    (astar_validacoes_distintas [[' ', ' ']] (1, 0) (0, 1)).2.1 (by decide) (by decide),
    (astar_validacoes_distintas [[' ', ' ']] (0, 0) (0, 2)).2.2.1 (by decide) (by decide)
      (by decide),
    (astar_validacoes_distintas [['*', ' ']] (0, 0) (0, 1)).2.2.2.1 (by decide) (by decide)
      (by decide) (by decide),
    (astar_validacoes_distintas [[' ', '*']] (0, 0) (0, 1)).2.2.2.2 (by decide) (by decide)
      (by decide) (by decide) (by decide)⟩

/-- C9: `Rotate` always succeeds, sets the direction to
`(direcao + 1) % 4` and changes nothing else; four consecutive rotations
restore the original state whenever the direction is in 0..3 (as it
always is in constructed environments). -/
theorem girar_sempre_sucede_ciclo (amb : AmbienteNavegacao) :
    executar_comando_navegacao 'G' amb = .ok (girar_agente amb) ∧
    girar_agente amb = { amb with direcao_agente := (amb.direcao_agente + 1) % 4 } ∧
    (amb.direcao_agente < 4 →
      girar_agente (girar_agente (girar_agente (girar_agente amb))) = amb) := by
  refine ⟨rfl, rfl, ?_⟩
  intro h4
  cases amb with
  | mk lab pos dir obj =>
    simp only [girar_agente]
    congr 1
    simp only [] at h4
    omega

/-- Concrete instantiation of `girar_sempre_sucede_ciclo`. -/
theorem girar_sempre_sucede_ciclo_witness :
    executar_comando_navegacao 'G' ⟨[['E']], (0, 0), 3, false⟩ =
      .ok (girar_agente ⟨[['E']], (0, 0), 3, false⟩) ∧
    girar_agente (girar_agente (girar_agente (girar_agente
      (⟨[['E']], (0, 0), 3, false⟩ : AmbienteNavegacao)))) =
      ⟨[['E']], (0, 0), 3, false⟩ :=
  ⟨(girar_sempre_sucede_ciclo ⟨[['E']], (0, 0), 3, false⟩).1,
    (girar_sempre_sucede_ciclo ⟨[['E']], (0, 0), 3, false⟩).2.2 (by decide)⟩

/-- C6: `Eject` fails with the not-carrying error when no object is
held, fails with the not-at-exit error when the agent is off the border,
and otherwise only clears the carried flag.  The border test is row 0,
the last row, column 0, or the last column (of the first row's width). -/
theorem ejetar_caracterizacao (amb : AmbienteNavegacao) :
    (amb.objeto_coletado = false →
      executar_comando_navegacao 'E' amb = .error .ejecaoSemObjetoColetado) ∧
    (amb.objeto_coletado = true → verificar_posicao_saida amb = false →
      executar_comando_navegacao 'E' amb = .error .ejecaoForaDaSaida) ∧
    (amb.objeto_coletado = true → verificar_posicao_saida amb = true →
      executar_comando_navegacao 'E' amb = .ok { amb with objeto_coletado := false }) ∧
    (verificar_posicao_saida amb = true ↔
      (amb.posicao_agente.1 = 0 ∨ amb.posicao_agente.1 = (amb.labirinto.length : Int) - 1 ∨
        amb.posicao_agente.2 = 0 ∨
        amb.posicao_agente.2 = ((amb.labirinto.headD []).length : Int) - 1)) := by
  have hexec : executar_comando_navegacao 'E' amb = ejetar_objeto amb := by
    unfold executar_comando_navegacao
    rw [if_neg (by decide), if_neg (by decide), if_neg (by decide), if_pos rfl]
  refine ⟨?_, ?_, ?_, ?_⟩
  · intro h1
    rw [hexec]
    unfold ejetar_objeto
    rw [if_pos h1]
  · intro h1 h2
    rw [hexec]
    unfold ejetar_objeto
    rw [if_neg (by rw [h1]; simp), if_pos h2]
  · intro h1 h2
    rw [hexec]
    unfold ejetar_objeto
    rw [if_neg (by rw [h1]; simp),
      if_neg (by rw [h2]; simp)]
  · unfold verificar_posicao_saida
    simp [decide_eq_true_iff]

/-- Concrete instantiations of `ejetar_caracterizacao`: a carrying agent
on the border ejects; one off the border fails; one not carrying fails. -/
theorem ejetar_caracterizacao_witness :
    executar_comando_navegacao 'E' ⟨[['E', ' '], [' ', ' ']], (0, 0), 1, true⟩ =
      .ok ⟨[['E', ' '], [' ', ' ']], (0, 0), 1, false⟩ ∧
    executar_comando_navegacao 'E'
        ⟨[[' ', ' ', ' '], [' ', 'E', ' '], [' ', ' ', ' ']], (1, 1), 1, true⟩ =
      .error .ejecaoForaDaSaida ∧
    executar_comando_navegacao 'E' ⟨[['E', ' '], [' ', ' ']], (0, 0), 1, false⟩ =
      .error .ejecaoSemObjetoColetado :=
  ⟨(ejetar_caracterizacao ⟨[['E', ' '], [' ', ' ']], (0, 0), 1, true⟩).2.2.1 rfl (by decide),
    (ejetar_caracterizacao
      ⟨[[' ', ' ', ' '], [' ', 'E', ' '], [' ', ' ', ' ']], (1, 1), 1, true⟩).2.1 rfl
      (by decide),
    (ejetar_caracterizacao ⟨[['E', ' '], [' ', ' ']], (0, 0), 1, false⟩).1 rfl⟩

lemma lerCelula_retangular {lab : Mapa} {p : Pos} (hrect : Retangular lab)
    (h1 : 0 ≤ p.1) (h2 : p.1 < (lab.length : Int)) (h3 : 0 ≤ p.2)
    (h4 : p.2 < ((lab.headD []).length : Int)) :
    lerCelula lab p = .ok (celula lab p) := by
  have hlt : p.1.toNat < lab.length := by omega
  have hrow : (lab.getD p.1.toNat []).length = (lab.headD []).length := by
    rw [List.getD_eq_getElem lab [] hlt]
    exact hrect _ (List.getElem_mem hlt)
  have hcol : p.2.toNat < (lab.getD p.1.toNat []).length := by omega
  unfold lerCelula celula
  simp only []
  rw [dif_pos hcol]
  congr 1
  rw [List.get_eq_getElem, List.getD_eq_getElem _ ' ' hcol]

/-- C5: executing `Advance` raises the collision error exactly when the
target cell in the facing direction fails the bound check or holds a
wall (`'*'` or `'X'`); otherwise it moves the agent to the target and
changes nothing else.  A failing command produces no new state, so the
environment is unchanged on failure. -/
theorem avancar_caracterizacao (amb : AmbienteNavegacao) (delta : Int × Int) (alvo : Pos)
    (hdelta : direcoesMovimento amb.direcao_agente = .ok delta)
    (halvo : alvo = (amb.posicao_agente.1 + delta.1, amb.posicao_agente.2 + delta.2))
    (hrect : Retangular amb.labirinto) :
    ((¬(0 ≤ alvo.1 ∧ alvo.1 < (amb.labirinto.length : Int) ∧ 0 ≤ alvo.2 ∧
        alvo.2 < ((amb.labirinto.headD []).length : Int)) ∨
      celula amb.labirinto alvo = '*' ∨ celula amb.labirinto alvo = 'X') ↔
      executar_comando_navegacao 'A' amb =
        .error (.colisaoParede amb.posicao_agente alvo)) ∧
    (¬(¬(0 ≤ alvo.1 ∧ alvo.1 < (amb.labirinto.length : Int) ∧ 0 ≤ alvo.2 ∧
        alvo.2 < ((amb.labirinto.headD []).length : Int)) ∨
      celula amb.labirinto alvo = '*' ∨ celula amb.labirinto alvo = 'X') →
      executar_comando_navegacao 'A' amb = .ok { amb with posicao_agente := alvo }) := by
  subst halvo
  have hbase : executar_comando_navegacao 'A' amb =
      (if 0 ≤ amb.posicao_agente.1 + delta.1 ∧
          amb.posicao_agente.1 + delta.1 < (amb.labirinto.length : Int) ∧
          0 ≤ amb.posicao_agente.2 + delta.2 ∧
          amb.posicao_agente.2 + delta.2 < ((amb.labirinto.headD []).length : Int) then
        Except.bind (lerCelula amb.labirinto
            (amb.posicao_agente.1 + delta.1, amb.posicao_agente.2 + delta.2))
          (fun conteudo =>
            if conteudo = '*' ∨ conteudo = 'X' then
              .error (.colisaoParede amb.posicao_agente
                (amb.posicao_agente.1 + delta.1, amb.posicao_agente.2 + delta.2))
            else
              .ok { amb with posicao_agente :=
                (amb.posicao_agente.1 + delta.1, amb.posicao_agente.2 + delta.2) })
      else
        .error (.colisaoParede amb.posicao_agente
          (amb.posicao_agente.1 + delta.1, amb.posicao_agente.2 + delta.2))) := by
    unfold executar_comando_navegacao
    rw [if_pos rfl]
    unfold avancar_agente
    rw [hdelta]
    rfl
  rw [hbase]
  by_cases hb : 0 ≤ amb.posicao_agente.1 + delta.1 ∧
      amb.posicao_agente.1 + delta.1 < (amb.labirinto.length : Int) ∧
      0 ≤ amb.posicao_agente.2 + delta.2 ∧
      amb.posicao_agente.2 + delta.2 < ((amb.labirinto.headD []).length : Int)
  · rw [if_pos hb, lerCelula_retangular hrect hb.1 hb.2.1 hb.2.2.1 hb.2.2.2]
    have hbo : ∀ (a : Char) (f : Char → Except ErroAmbiente AmbienteNavegacao),
        Except.bind (Except.ok a) f = f a := fun a f => rfl
    rw [hbo]
    simp only []
    by_cases hw : celula amb.labirinto
        (amb.posicao_agente.1 + delta.1, amb.posicao_agente.2 + delta.2) = '*' ∨
      celula amb.labirinto
        (amb.posicao_agente.1 + delta.1, amb.posicao_agente.2 + delta.2) = 'X'
    · constructor
      · exact iff_of_true (Or.inr hw) (by rw [if_pos hw])
      · intro hno
        exact absurd (Or.inr hw) hno
    · constructor
      · rw [if_neg hw]
        constructor
        · rintro (h1 | h1 | h1)
          · exact absurd hb h1
          · exact absurd (Or.inl h1) hw
          · exact absurd (Or.inr h1) hw
        · intro h
          simp at h
      · intro _
        rw [if_neg hw]
  · rw [if_neg hb]
    constructor
    · exact iff_of_true (Or.inl hb) rfl
    · intro hno
      exact absurd (Or.inl hb) hno

/-- Concrete instantiations of `avancar_caracterizacao`: a successful
advance east, and a collision when facing the map edge. -/
theorem avancar_caracterizacao_witness :
    executar_comando_navegacao 'A' ⟨[['E', ' '], [' ', ' ']], (0, 0), 1, false⟩ =
      .ok ⟨[['E', ' '], [' ', ' ']], (0, 1), 1, false⟩ ∧
    executar_comando_navegacao 'A' ⟨[['E', ' '], [' ', ' ']], (0, 0), 0, false⟩ =
      .error (.colisaoParede (0, 0) (-1, 0)) :=
  ⟨(avancar_caracterizacao ⟨[['E', ' '], [' ', ' ']], (0, 0), 1, false⟩ (0, 1) (0, 1)
      rfl (by decide) (by decide)).2 (by decide),
    (avancar_caracterizacao ⟨[['E', ' '], [' ', ' ']], (0, 0), 0, false⟩ (-1, 0) (-1, 0)
      rfl (by decide) (by decide)).1.mp (Or.inl (by decide))⟩

lemma bind_ok_inv {α β : Type} {x : Except ErroAmbiente α} {f : α → Except ErroAmbiente β}
    {b : β} (h : x >>= f = .ok b) : ∃ a, x = .ok a ∧ f a = .ok b := by
  cases x with
  | error e => exact Except.noConfusion h
  | ok a => exact ⟨a, rfl, h⟩

lemma mapM3_inv {α β : Type} {f : α → Except ErroAmbiente β} {o1 o2 o3 : α} {l : List β}
    (h : ([o1, o2, o3].mapM f) = .ok l) :
    ∃ a b c, f o1 = .ok a ∧ f o2 = .ok b ∧ f o3 = .ok c ∧ l = [a, b, c] := by
  have hshow : ([o1, o2, o3].mapM f) =
      (f o1 >>= fun b1 => f o2 >>= fun b2 => f o3 >>= fun b3 => pure [b1, b2, b3]) := rfl
  rw [hshow] at h
  obtain ⟨a, ha, h⟩ := bind_ok_inv h
  obtain ⟨b, hb, h⟩ := bind_ok_inv h
  obtain ⟨c, hc, h⟩ := bind_ok_inv h
  exact ⟨a, b, c, ha, hb, hc, (Except.ok.inj h).symm⟩

lemma direcoesRelativas_forma {d : Nat} {ds : List (Int × Int)}
    (h : direcoesRelativasSensores d = .ok ds) :
    ∃ o1 o2 o3, ds = [o1, o2, o3] := by
  unfold direcoesRelativasSensores at h
  split at h
  · exact ⟨_, _, _, (Except.ok.inj h).symm⟩
  · exact ⟨_, _, _, (Except.ok.inj h).symm⟩
  · exact ⟨_, _, _, (Except.ok.inj h).symm⟩
  · exact ⟨_, _, _, (Except.ok.inj h).symm⟩
  · exact Except.noConfusion h

lemma obter_leituras_inv {amb : AmbienteNavegacao} {l : List Leitura}
    (h : obter_leituras_sensores_proximidade amb = .ok l) :
    ∃ o1 o2 o3 a b c,
      direcoesRelativasSensores amb.direcao_agente = .ok [o1, o2, o3] ∧
      lerSensor amb.labirinto
        (amb.posicao_agente.1 + o1.1, amb.posicao_agente.2 + o1.2) = .ok a ∧
      lerSensor amb.labirinto
        (amb.posicao_agente.1 + o2.1, amb.posicao_agente.2 + o2.2) = .ok b ∧
      lerSensor amb.labirinto
        (amb.posicao_agente.1 + o3.1, amb.posicao_agente.2 + o3.2) = .ok c ∧
      l = [a, b, c] := by
  unfold obter_leituras_sensores_proximidade at h
  obtain ⟨ds, hds, h2⟩ := bind_ok_inv h
  obtain ⟨o1, o2, o3, hforma⟩ := direcoesRelativas_forma hds
  subst hforma
  obtain ⟨a, b, c, ha, hb, hc, hl⟩ := mapM3_inv h2
  exact ⟨o1, o2, o3, a, b, c, hds, ha, hb, hc, hl⟩

lemma obter_leituras_comprimento {amb : AmbienteNavegacao} {l : List Leitura}
    (h : obter_leituras_sensores_proximidade amb = .ok l) : l.length = 3 := by
  obtain ⟨_, _, _, _, _, _, _, _, _, _, hl⟩ := obter_leituras_inv h
  rw [hl]
  rfl

/-- C10: whenever the sensing operation returns, it returns exactly three
readings, so the post-collection validation can only pass or raise the
trapped-agent or dead-end alarms — the sensor-fault branch
(`len(leituras) != 3`) is unreachable. -/
theorem validacao_pos_coleta_sem_falha_sensor (amb : AmbienteNavegacao)
    (l : List Leitura) (h : obter_leituras_sensores_proximidade amb = .ok l) :
    l.length = 3 ∧
    validar_estado_pos_coleta amb ≠ .error .alarmeLeiturasSensores ∧
    (validar_estado_pos_coleta amb = .ok () ∨
      validar_estado_pos_coleta amb = .error .alarmeTresParedes ∨
      validar_estado_pos_coleta amb = .error .alarmeBecoSemSaida) := by
  have hlen : l.length = 3 := obter_leituras_comprimento h
  have hval : validar_estado_pos_coleta amb = .ok () ∨
      validar_estado_pos_coleta amb = .error .alarmeTresParedes ∨
      validar_estado_pos_coleta amb = .error .alarmeBecoSemSaida := by
    unfold validar_estado_pos_coleta
    by_cases hobj : amb.objeto_coletado = false
    · rw [if_pos hobj]
      exact Or.inl rfl
    · rw [if_neg hobj, h]
      have hred : ∀ f : List Leitura → Except ErroAmbiente Unit,
          ((Except.ok l : Except ErroAmbiente (List Leitura)) >>= f) = f l :=
        fun f => rfl
      rw [hred]
      by_cases h1 : 3 ≤ l.length ∧ l.all (fun leitura => leitura = .parede)
      · rw [if_pos h1]
        exact Or.inr (Or.inl rfl)
      · rw [if_neg h1]
        by_cases h2 : l.countP (fun leitura => leitura = .vago) = 0
        · rw [if_pos h2]
          exact Or.inr (Or.inr rfl)
        · rw [if_neg h2, if_neg (by omega)]
          exact Or.inl rfl
  refine ⟨hlen, ?_, hval⟩
  rcases hval with h1 | h1 | h1 <;> rw [h1] <;> simp

/-- Concrete instantiation of `validacao_pos_coleta_sem_falha_sensor`:
a carrying agent whose sensors read wall, open, wall. -/
theorem validacao_pos_coleta_sem_falha_sensor_witness :
    obter_leituras_sensores_proximidade
        ⟨[['*', 'E', '*'], [' ', ' ', ' '], ['*', '@', '*']], (1, 1), 0, true⟩ =
      .ok [.parede, .vago, .parede] ∧
    ([Leitura.parede, .vago, .parede].length = 3 ∧
      validar_estado_pos_coleta
          ⟨[['*', 'E', '*'], [' ', ' ', ' '], ['*', '@', '*']], (1, 1), 0, true⟩ ≠
        .error .alarmeLeiturasSensores ∧
      (validar_estado_pos_coleta
          ⟨[['*', 'E', '*'], [' ', ' ', ' '], ['*', '@', '*']], (1, 1), 0, true⟩ = .ok () ∨
        validar_estado_pos_coleta
          ⟨[['*', 'E', '*'], [' ', ' ', ' '], ['*', '@', '*']], (1, 1), 0, true⟩ =
          .error .alarmeTresParedes ∨
        validar_estado_pos_coleta
          ⟨[['*', 'E', '*'], [' ', ' ', ' '], ['*', '@', '*']], (1, 1), 0, true⟩ =
          .error .alarmeBecoSemSaida)) :=
  ⟨rfl, validacao_pos_coleta_sem_falha_sensor
    ⟨[['*', 'E', '*'], [' ', ' ', ' '], ['*', '@', '*']], (1, 1), 0, true⟩
    [.parede, .vago, .parede] rfl⟩

/-- C2 (code defect): on the map `["***", "E", "*@*"]`, whose second line
is shorter than the first, the environment constructs successfully with
the agent at (1, 0) facing east, but reading the sensors raises the
ragged-row `IndexError` at (1, 1) instead of treating the missing
trailing cell as a wall as the specification prescribes. -/
theorem sensores_linha_curta_indexerror :
    AmbienteNavegacao.criar [['*', '*', '*'], ['E'], ['*', '@', '*']] =
      .ok ⟨[['*', '*', '*'], ['E'], ['*', '@', '*']], (1, 0), 1, false⟩ ∧
    obter_leituras_sensores_proximidade
        ⟨[['*', '*', '*'], ['E'], ['*', '@', '*']], (1, 0), 1, false⟩ =
      .error (.indiceForaDaLinha (1, 1)) :=
  ⟨rfl, rfl⟩

lemma lerCelula_inv {lab : Mapa} {p : Pos} {c : Char} (h : lerCelula lab p = .ok c) :
    p.2.toNat < (lab.getD p.1.toNat []).length ∧ celula lab p = c := by
  unfold lerCelula at h
  simp only [] at h
  split at h
  · rename_i hlt
    refine ⟨hlt, ?_⟩
    have hc := Except.ok.inj h
    unfold celula
    rw [← hc, List.get_eq_getElem, List.getD_eq_getElem _ ' ' hlt]
  · exact Except.noConfusion h

lemma lerSensor_humano_inv {lab : Mapa} {p : Pos} (h : lerSensor lab p = .ok .humano) :
    0 ≤ p.1 ∧ p.1 < (lab.length : Int) ∧ 0 ≤ p.2 ∧
      p.2 < ((lab.headD []).length : Int) := by
  unfold lerSensor at h
  split at h
  · assumption
  · exact Leitura.noConfusion (Except.ok.inj h)

lemma remover_set {linha : List Char} {j : Nat} (h : j < linha.length) :
    removerObjetoDaLinha linha j = linha.set j ' ' := by
  unfold removerObjetoDaLinha
  rw [List.set_eq_take_cons_drop _ h]
  simp

lemma direcaoFrente_valores {d : Nat} {delta : Int × Int}
    (h : direcaoFrente d = .ok delta) :
    delta = (-1, 0) ∨ delta = (0, 1) ∨ delta = (1, 0) ∨ delta = (0, -1) := by
  unfold direcaoFrente at h
  split at h
  · exact Or.inl (Except.ok.inj h).symm
  · exact Or.inr (Or.inl (Except.ok.inj h).symm)
  · exact Or.inr (Or.inr (Or.inl (Except.ok.inj h).symm))
  · exact Or.inr (Or.inr (Or.inr (Except.ok.inj h).symm))
  · exact Except.noConfusion h

lemma frente_igual_sensor_frente {d : Nat} {delta : Int × Int} {o1 o2 o3 : Int × Int}
    (h1 : direcaoFrente d = .ok delta)
    (h2 : direcoesRelativasSensores d = .ok [o1, o2, o3]) : o2 = delta := by
  unfold direcaoFrente at h1
  unfold direcoesRelativasSensores at h2
  split at h1 <;> simp_all

lemma localizar_inv {lab : Mapa} {e : Pos}
    (h : localizar_ponto_entrada lab = .ok e) :
    0 ≤ e.1 ∧ e.1 < (lab.length : Int) ∧ 0 ≤ e.2 ∧
      e.2 < ((lab.getD e.1.toNat []).length : Int) ∧ celula lab e = 'E' := by
  have hmem : e ∈ (lab.enum.map (fun par =>
      par.2.enum.filterMap (fun par2 =>
        if par2.2 = 'E' then some ((par.1 : Int), (par2.1 : Int)) else none))).flatten := by
    unfold localizar_ponto_entrada at h
    simp only [] at h
    split at h
    · exact Except.noConfusion h
    · rename_i heq
      rw [heq, Except.ok.inj h]
      exact List.mem_cons_self _ _
    · exact Except.noConfusion h
  rw [List.mem_flatten] at hmem
  obtain ⟨lista, hlista, hel⟩ := hmem
  rw [List.mem_map] at hlista
  obtain ⟨par, hpar, hfl⟩ := hlista
  obtain ⟨i, linha⟩ := par
  rw [← hfl, List.mem_filterMap] at hel
  obtain ⟨par2, hpar2, hif⟩ := hel
  obtain ⟨j, ch⟩ := par2
  have hrow : lab[i]? = some linha := List.mem_enum_iff_getElem?.1 hpar
  have hcell : linha[j]? = some ch := List.mem_enum_iff_getElem?.1 hpar2
  have hilt : i < lab.length := by
    by_contra hge
    rw [List.getElem?_eq_none (by omega)] at hrow
    exact Option.noConfusion hrow
  have hjlt : j < linha.length := by
    by_contra hge
    rw [List.getElem?_eq_none (by omega)] at hcell
    exact Option.noConfusion hcell
  have hrowv : lab[i] = linha := by
    have := List.getElem?_eq_getElem hilt
    rw [this] at hrow
    exact Option.some.inj hrow
  have hcellv : linha[j] = ch := by
    have := List.getElem?_eq_getElem hjlt
    rw [this] at hcell
    exact Option.some.inj hcell
  simp only [] at hif
  split at hif
  · rename_i hE
    have he2 := Option.some.inj hif
    rw [← he2]
    simp only []
    refine ⟨by omega, by omega, by omega, ?_, ?_⟩
    · rw [Int.toNat_ofNat, List.getD_eq_getElem lab [] hilt, hrowv]
      omega
    · unfold celula
      simp only [Int.toNat_ofNat]
      rw [List.getD_eq_getElem lab [] hilt, hrowv, List.getD_eq_getElem _ ' ' hjlt,
        hcellv, hE]
  · exact Option.noConfusion hif

lemma criar_inv {lab : Mapa} {amb : AmbienteNavegacao}
    (h : AmbienteNavegacao.criar lab = .ok amb) :
    localizar_ponto_entrada lab = .ok amb.posicao_agente ∧ amb.labirinto = lab := by
  unfold AmbienteNavegacao.criar at h
  obtain ⟨e, he, h2⟩ := bind_ok_inv h
  obtain ⟨u, hu, h3⟩ := bind_ok_inv h2
  have hamb := Except.ok.inj h3
  exact ⟨by rw [← hamb]; exact he, by rw [← hamb]⟩

lemma getD_set_igual {α : Type} (l : List α) (i : Nat) (a d : α) (hi : i < l.length) :
    (l.set i a).getD i d = a := by
  rw [List.getD_eq_getElem _ d (by rw [List.length_set]; exact hi)]
  exact List.getElem_set_self _

lemma getD_set_diferente {α : Type} (l : List α) (i j : Nat) (a d : α) (hne : i ≠ j) :
    (l.set i a).getD j d = l.getD j d := by
  by_cases hj : j < l.length
  · rw [List.getD_eq_getElem _ d (by rw [List.length_set]; exact hj),
      List.getD_eq_getElem _ d hj]
    exact List.getElem_set_ne hne _
  · rw [List.getD_eq_default (l.set i a) d (by rw [List.length_set]; omega),
      List.getD_eq_default l d (by omega)]

lemma avancar_preserva_posicao {amb amb2 : AmbienteNavegacao}
    (h : avancar_agente amb = .ok amb2) : PosicaoValida amb2 := by
  obtain ⟨lab, pos, dir, obj⟩ := amb
  unfold avancar_agente at h
  dsimp only at h
  obtain ⟨delta, hdelta, h2⟩ := bind_ok_inv h
  split at h2
  · rename_i hb
    obtain ⟨c, hc, h3⟩ := bind_ok_inv h2
    split at h3
    · exact Except.noConfusion h3
    · rename_i hw
      have hamb2 := Except.ok.inj h3
      obtain ⟨hrow, hcel⟩ := lerCelula_inv hc
      rw [← hamb2]
      push_neg at hw
      unfold PosicaoValida
      dsimp only
      refine ⟨hb.1, hb.2.1, hb.2.2.1, ?_, ?_, ?_⟩
      · dsimp only at hrow
        omega
      · rw [hcel]
        exact hw.1
      · rw [hcel]
        exact hw.2
  · exact Except.noConfusion h2

lemma girar_preserva_posicao {amb : AmbienteNavegacao} (hpv : PosicaoValida amb) :
    PosicaoValida (girar_agente amb) := by
  obtain ⟨lab, pos, dir, obj⟩ := amb
  exact hpv

lemma ejetar_preserva_posicao {amb amb2 : AmbienteNavegacao}
    (hpv : PosicaoValida amb) (h : ejetar_objeto amb = .ok amb2) :
    PosicaoValida amb2 := by
  obtain ⟨lab, pos, dir, obj⟩ := amb
  unfold ejetar_objeto at h
  split at h
  · exact Except.noConfusion h
  · split at h
    · exact Except.noConfusion h
    · rw [← Except.ok.inj h]
      exact hpv

lemma coletar_preserva_posicao {amb amb2 : AmbienteNavegacao}
    (hpv : PosicaoValida amb) (h : coletar_objeto amb = .ok amb2) :
    PosicaoValida amb2 := by
  obtain ⟨lab, pos, dir, obj⟩ := amb
  obtain ⟨hp1, hp2, hp3, hp4, hp5, hp6⟩ := hpv
  unfold coletar_objeto at h
  obtain ⟨leituras, hleit, h2⟩ := bind_ok_inv h
  split at h2
  · rename_i hfront
    obtain ⟨delta, hdelta, h3⟩ := bind_ok_inv h2
    simp only [] at h3
    obtain ⟨c, hc, h4⟩ := bind_ok_inv h3
    split at h4
    · rename_i hH
      have hamb2 := Except.ok.inj h4
      obtain ⟨hjlt, hcel⟩ := lerCelula_inv hc
      obtain ⟨o1, o2, o3, a, b, c2, hds, hs1, hs2, hs3, hlform⟩ := obter_leituras_inv hleit
      have ho2 : o2 = delta := frente_igual_sensor_frente hdelta hds
      have hb : b = .humano := by
        have hfr := hfront.2
        rw [hlform] at hfr
        exact hfr
      rw [hb, ho2] at hs2
      obtain ⟨hb1, hb2, hb3, hb4⟩ := lerSensor_humano_inv hs2
      have hq1 : (0 : Int) ≤ pos.1 := hp1
      have hq2 : pos.1 < (lab.length : Int) := hp2
      have hq3 : (0 : Int) ≤ pos.2 := hp3
      have hr1 : (0 : Int) ≤ pos.1 + delta.1 := hb1
      have hr2 : pos.1 + delta.1 < (lab.length : Int) := hb2
      have hr3 : (0 : Int) ≤ pos.2 + delta.2 := hb3
      have hd : (delta.1 = -1 ∧ delta.2 = 0) ∨ (delta.1 = 0 ∧ delta.2 = 1) ∨
          (delta.1 = 1 ∧ delta.2 = 0) ∨ (delta.1 = 0 ∧ delta.2 = -1) := by
        rcases direcaoFrente_valores hdelta with hv | hv | hv | hv <;> rw [hv] <;> simp
      rw [← hamb2]
      unfold PosicaoValida
      dsimp only
      refine ⟨hp1, ?_, hp3, ?_, ?_, ?_⟩
      · rw [List.length_set]
        exact hp2
      · by_cases hi : (pos.1 + delta.1).toNat = pos.1.toNat
        · rw [hi, getD_set_igual _ _ _ _ (by omega : pos.1.toNat < lab.length),
            remover_set (by rw [← hi]; exact hjlt), List.length_set]
          exact hp4
        · rw [getD_set_diferente _ _ _ _ _ hi]
          exact hp4
      · unfold celula
        by_cases hi : (pos.1 + delta.1).toNat = pos.1.toNat
        · have hne2 : (pos.2 + delta.2).toNat ≠ pos.2.toNat := by omega
          rw [hi, getD_set_igual _ _ _ _ (by omega : pos.1.toNat < lab.length),
            remover_set (by rw [← hi]; exact hjlt), getD_set_diferente _ _ _ _ _ hne2]
          exact hp5
        · rw [getD_set_diferente _ _ _ _ _ hi]
          exact hp5
      · unfold celula
        by_cases hi : (pos.1 + delta.1).toNat = pos.1.toNat
        · have hne2 : (pos.2 + delta.2).toNat ≠ pos.2.toNat := by omega
          rw [hi, getD_set_igual _ _ _ _ (by omega : pos.1.toNat < lab.length),
            remover_set (by rw [← hi]; exact hjlt), getD_set_diferente _ _ _ _ _ hne2]
          exact hp6
        · rw [getD_set_diferente _ _ _ _ _ hi]
          exact hp6
    · exact Except.noConfusion h4
  · exact Except.noConfusion h2

lemma criar_posicao_valida {lab : Mapa} {amb : AmbienteNavegacao}
    (h : AmbienteNavegacao.criar lab = .ok amb) : PosicaoValida amb := by
  obtain ⟨hloc, hlab⟩ := criar_inv h
  obtain ⟨h1, h2, h3, h4, h5⟩ := localizar_inv hloc
  unfold PosicaoValida
  rw [hlab]
  exact ⟨h1, h2, h3, h4, by rw [h5]; decide, by rw [h5]; decide⟩

/-- C8: the agent position always addresses a cell that exists in its own
row and is not a wall (`'*'`/`'X'`): it holds after construction, and every
command executed through `executar_comando_navegacao` that returns a new
state preserves it.  A failing command raises before any mutation in the
source, which the embedding models by returning only an error and no new
state, so failure trivially preserves the invariant. -/
theorem posicao_valida_invariante :
    (∀ lab amb, AmbienteNavegacao.criar lab = .ok amb → PosicaoValida amb) ∧
    (∀ comando amb amb2, PosicaoValida amb →
      executar_comando_navegacao comando amb = .ok amb2 → PosicaoValida amb2) := by
  constructor
  · intro lab amb h
    exact criar_posicao_valida h
  · intro comando amb amb2 hpv hexec
    unfold executar_comando_navegacao at hexec
    by_cases hA : comando = 'A'
    · rw [if_pos hA] at hexec
      exact avancar_preserva_posicao hexec
    · rw [if_neg hA] at hexec
      by_cases hG : comando = 'G'
      · rw [if_pos hG] at hexec
        rw [← Except.ok.inj hexec]
        exact girar_preserva_posicao hpv
      · rw [if_neg hG] at hexec
        by_cases hP : comando = 'P'
        · rw [if_pos hP] at hexec
          exact coletar_preserva_posicao hpv hexec
        · rw [if_neg hP] at hexec
          by_cases hE : comando = 'E'
          · rw [if_pos hE] at hexec
            exact ejetar_preserva_posicao hpv hexec
          · rw [if_neg hE] at hexec
            exact Except.noConfusion hexec

theorem posicao_valida_invariante_witness :
    PosicaoValida
      (⟨[['*', 'E', '*'], ['*', ' ', '*'], ['*', '@', '*']], (0, 1), 2, false⟩ :
        AmbienteNavegacao) ∧
    PosicaoValida
      (⟨[['*', 'E', '*'], ['*', ' ', '*'], ['*', '@', '*']], (0, 1), 3, false⟩ :
        AmbienteNavegacao) :=
  ⟨posicao_valida_invariante.1 [['*', 'E', '*'], ['*', ' ', '*'], ['*', '@', '*']]
      ⟨[['*', 'E', '*'], ['*', ' ', '*'], ['*', '@', '*']], (0, 1), 2, false⟩ (by rfl),
   posicao_valida_invariante.2 'G'
      ⟨[['*', 'E', '*'], ['*', ' ', '*'], ['*', '@', '*']], (0, 1), 2, false⟩
      ⟨[['*', 'E', '*'], ['*', ' ', '*'], ['*', '@', '*']], (0, 1), 3, false⟩
      (by decide) (by rfl)⟩

lemma dictGet_cons (p : Pos × Char) (resto : List (Pos × Char)) (q : Pos) :
    dictGet (p :: resto) q = if p.1 == q then some p.2 else dictGet resto q := by
  unfold dictGet
  rw [List.find?_cons]
  cases hb : p.1 == q <;> simp [hb]

lemma dictGet_subst_ne {chave q : Pos} {v : Char} (hne : q ≠ chave)
    (l : List (Pos × Char)) :
    dictGet (l.map (fun par => if par.1 == chave then (chave, v) else par)) q =
      dictGet l q := by
  induction l with
  | nil => rfl
  | cons p resto ih =>
    rw [List.map_cons]
    by_cases hpc : p.1 = chave
    · have h1 : (if p.1 == chave then (chave, v) else p) = (chave, v) := by
        simp [hpc]
      have h2 : (((chave, v) : Pos × Char).1 == q) = false := by
        rw [beq_eq_false_iff_ne]
        exact fun h => hne h.symm
      have h3 : (p.1 == q) = false := by
        rw [beq_eq_false_iff_ne, hpc]
        exact fun h => hne h.symm
      rw [h1, dictGet_cons, dictGet_cons, h2, h3,
        if_neg (fun hf => Bool.noConfusion hf), if_neg (fun hf => Bool.noConfusion hf)]
      exact ih
    · have h1 : (if p.1 == chave then (chave, v) else p) = p := by
        simp [hpc]
      rw [h1, dictGet_cons, dictGet_cons]
      by_cases hpq : p.1 = q
      · simp [hpq]
      · have h3 : (p.1 == q) = false := beq_eq_false_iff_ne.2 hpq
        rw [h3, if_neg (fun hf => Bool.noConfusion hf), if_neg (fun hf => Bool.noConfusion hf)]
        exact ih

lemma dictGet_append_ne {chave q : Pos} {v : Char} (hne : q ≠ chave)
    (l : List (Pos × Char)) :
    dictGet (l ++ [(chave, v)]) q = dictGet l q := by
  induction l with
  | nil =>
    rw [List.nil_append]
    unfold dictGet
    have h2 : (((chave, v) : Pos × Char).1 == q) = false := by
      rw [beq_eq_false_iff_ne]
      exact fun h => hne h.symm
    simp [List.find?_cons, h2]
  | cons p resto ih =>
    rw [List.cons_append, dictGet_cons, dictGet_cons, ih]

lemma dictGet_dictSet_ne {chave q : Pos} {v : Char} (hne : q ≠ chave)
    (l : List (Pos × Char)) :
    dictGet (dictSet l chave v) q = dictGet l q := by
  unfold dictSet
  split
  · exact dictGet_subst_ne hne l
  · exact dictGet_append_ne hne l

lemma registrarLeituras_fora (posicao_atual : Pos)
    (pares : List ((Int × Int) × Leitura)) :
    ∀ (mapa : List (Pos × Char)) (obj : Option Pos) (q : Pos),
      (∀ par ∈ pares, q ≠ (posicao_atual.1 + par.1.1, posicao_atual.2 + par.1.2)) →
      dictGet (registrarLeituras posicao_atual pares mapa obj).1 q = dictGet mapa q := by
  induction pares with
  | nil => intro mapa obj q _; rfl
  | cons par resto ih =>
    intro mapa obj q h
    obtain ⟨delta, leitura⟩ := par
    have hq : q ≠ (posicao_atual.1 + delta.1, posicao_atual.2 + delta.2) :=
      h _ (List.mem_cons_self _ _)
    have hrest : ∀ par ∈ resto, q ≠ (posicao_atual.1 + par.1.1, posicao_atual.2 + par.1.2) :=
      fun par hp => h par (List.mem_cons_of_mem _ hp)
    cases leitura with
    | parede =>
      rw [show registrarLeituras posicao_atual ((delta, .parede) :: resto) mapa obj =
            registrarLeituras posicao_atual resto
              (dictSet mapa (posicao_atual.1 + delta.1, posicao_atual.2 + delta.2) 'X')
              obj from rfl,
        ih _ obj q hrest, dictGet_dictSet_ne hq]
    | humano =>
      rw [show registrarLeituras posicao_atual ((delta, .humano) :: resto) mapa obj =
            registrarLeituras posicao_atual resto
              (dictSet mapa (posicao_atual.1 + delta.1, posicao_atual.2 + delta.2) '@')
              (some (posicao_atual.1 + delta.1, posicao_atual.2 + delta.2)) from rfl,
        ih _ _ q hrest, dictGet_dictSet_ne hq]
    | vago =>
      rw [show registrarLeituras posicao_atual ((delta, .vago) :: resto) mapa obj =
            (if dictGet mapa (posicao_atual.1 + delta.1, posicao_atual.2 + delta.2) = none
             then registrarLeituras posicao_atual resto
               (dictSet mapa (posicao_atual.1 + delta.1, posicao_atual.2 + delta.2) '.')
               obj
             else registrarLeituras posicao_atual resto mapa obj) from rfl]
      split
      · rw [ih _ obj q hrest, dictGet_dictSet_ne hq]
      · exact ih _ obj q hrest

lemma bind_ok {α β : Type} (a : α) (f : α → Except ErroAmbiente β) :
    ((Except.ok a : Except ErroAmbiente α) >>= f) = f a := rfl

lemma atualizar_inv {pos : Pos} {st st1 : Explorador}
    (h : atualizar_mapa_com_sensores pos st = .ok st1) :
    ∃ direcoes leituras,
      mapaDirecoesSensores st.ambiente.direcao_agente = .ok direcoes ∧
      obter_leituras_sensores_proximidade st.ambiente = .ok leituras ∧
      st1 = { st with
        mapa_conhecido := (registrarLeituras pos (direcoes.zip leituras)
          st.mapa_conhecido st.posicao_objeto).1
        posicao_objeto := (registrarLeituras pos (direcoes.zip leituras)
          st.mapa_conhecido st.posicao_objeto).2 } := by
  unfold atualizar_mapa_com_sensores at h
  obtain ⟨ds, hds, h2⟩ := bind_ok_inv h
  obtain ⟨ls, hls, h3⟩ := bind_ok_inv h2
  exact ⟨ds, ls, hds, hls, (Except.ok.inj h3).symm⟩

lemma atualizar_pilha {pos : Pos} {st st1 : Explorador}
    (h : atualizar_mapa_com_sensores pos st = .ok st1) :
    st1.pilha_navegacao = st.pilha_navegacao := by
  obtain ⟨ds, ls, hds, hls, hst1⟩ := atualizar_inv h
  rw [hst1]

lemma explorarLoop_succ (fuel : Nat) (st : Explorador) (topo : Pos) (resto : List Pos)
    (hpilha : st.pilha_navegacao = topo :: resto) :
    explorarLoop (fuel + 1) st =
      (atualizar_mapa_com_sensores topo st >>= fun st1 =>
       obter_leituras_sensores_proximidade st1.ambiente >>= fun leituras =>
       match leituras.get? 1 with
       | none => .error .leiturasInsuficientes
       | some frente =>
         if frente = .humano then .ok true
         else
           encontrar_proxima_posicao_para_explorar topo st1 >>= fun proxima =>
           match proxima with
           | some nova =>
             mover_para nova st1.ambiente >>= fun amb2 =>
             explorarLoop fuel { st1 with
               ambiente := amb2
               posicoes_visitadas := amb2.posicao_agente :: st1.posicoes_visitadas
               pilha_navegacao := amb2.posicao_agente :: st1.pilha_navegacao }
           | none =>
             match st1.pilha_navegacao with
             | [] => .error .pilhaNula
             | _ :: pilha2 =>
               match pilha2 with
               | [] => .ok false
               | topo2 :: _ =>
                 mover_para topo2 st1.ambiente >>= fun amb2 =>
                 explorarLoop fuel { st1 with ambiente := amb2, pilha_navegacao := pilha2 }) := by
  obtain ⟨amb, mc, pv, pn, po, mi⟩ := st
  have hpn : pn = topo :: resto := hpilha
  subst hpn
  rfl

/-- C3 (amended): each pass of `_atualizar_mapa_com_sensores` senses once
at the current orientation without rotating the agent — the environment
(hence the orientation) is returned untouched — and can only record the
three cells at the offsets its `mapa_direcoes_sensores` table assigns to
that orientation; every other cell of the known map, in particular the
cell behind the agent, keeps its previous value, so the claimed
rotate-four-times protocol recording all 4 cardinal neighbors does not
take place. -/
theorem atualizacao_registra_tres_sensores
    (st : Explorador) (pos : Pos) (direcoes : List (Int × Int)) (st1 : Explorador)
    (hds : mapaDirecoesSensores st.ambiente.direcao_agente = .ok direcoes)
    (h : atualizar_mapa_com_sensores pos st = .ok st1) :
    st1.ambiente = st.ambiente ∧
    ∀ q : Pos, (∀ delta ∈ direcoes, q ≠ (pos.1 + delta.1, pos.2 + delta.2)) →
      dictGet st1.mapa_conhecido q = dictGet st.mapa_conhecido q := by
  obtain ⟨ds, ls, hds2, hls, hst1⟩ := atualizar_inv h
  have hdseq : ds = direcoes := Except.ok.inj (hds2.symm.trans hds)
  constructor
  · rw [hst1]
  · intro q hq
    rw [hst1]
    refine registrarLeituras_fora pos (ds.zip ls) st.mapa_conhecido st.posicao_objeto q ?_
    intro par hpar
    obtain ⟨delta, leitura⟩ := par
    have hmem := (List.of_mem_zip hpar).1
    rw [hdseq] at hmem
    exact hq delta hmem

/-- C3 counterexample: with the agent at `(1, 1)` facing south on the map
`["*E*", "* *", "*@*"]`, one map update leaves the three cardinal
neighbors `(0, 1)`, `(1, 0)` and `(1, 2)` of the current cell unrecorded
(it records the diagonal cells `(2, 2)` and `(2, 0)` and the front cell
`(2, 1)` instead) and leaves the orientation at `2`: no rotation through
the four orientations happens. -/
theorem atualizacao_nao_registra_quatro_vizinhos :
    (atualizar_mapa_com_sensores (1, 1)
        (Explorador.criar
          ⟨[['*', 'E', '*'], ['*', ' ', '*'], ['*', '@', '*']], (1, 1), 2, false⟩)).map
        (fun st1 => (dictGet st1.mapa_conhecido (0, 1), dictGet st1.mapa_conhecido (1, 0),
          dictGet st1.mapa_conhecido (1, 2), st1.ambiente.direcao_agente)) =
      .ok (none, none, none, 2) := rfl

theorem atualizacao_registra_tres_sensores_witness :
    (⟨⟨[['*', 'E', '*'], ['*', ' ', '*'], ['*', '@', '*']], (1, 1), 2, false⟩,
      [((2, 2), 'X'), ((2, 1), '@'), ((2, 0), 'X')], [], [], some (2, 1), 500⟩ :
        Explorador).ambiente =
      (Explorador.criar
        ⟨[['*', 'E', '*'], ['*', ' ', '*'], ['*', '@', '*']], (1, 1), 2, false⟩).ambiente ∧
    dictGet (⟨⟨[['*', 'E', '*'], ['*', ' ', '*'], ['*', '@', '*']], (1, 1), 2, false⟩,
      [((2, 2), 'X'), ((2, 1), '@'), ((2, 0), 'X')], [], [], some (2, 1), 500⟩ :
        Explorador).mapa_conhecido (0, 1) =
      dictGet (Explorador.criar
        ⟨[['*', 'E', '*'], ['*', ' ', '*'], ['*', '@', '*']], (1, 1), 2, false⟩).mapa_conhecido
        (0, 1) :=
  ⟨(atualizacao_registra_tres_sensores
      (Explorador.criar ⟨[['*', 'E', '*'], ['*', ' ', '*'], ['*', '@', '*']], (1, 1), 2, false⟩)
      (1, 1) [(1, 1), (1, 0), (1, -1)]
      ⟨⟨[['*', 'E', '*'], ['*', ' ', '*'], ['*', '@', '*']], (1, 1), 2, false⟩,
        [((2, 2), 'X'), ((2, 1), '@'), ((2, 0), 'X')], [], [], some (2, 1), 500⟩
      rfl rfl).1,
   (atualizacao_registra_tres_sensores
      (Explorador.criar ⟨[['*', 'E', '*'], ['*', ' ', '*'], ['*', '@', '*']], (1, 1), 2, false⟩)
      (1, 1) [(1, 1), (1, 0), (1, -1)]
      ⟨⟨[['*', 'E', '*'], ['*', ' ', '*'], ['*', '@', '*']], (1, 1), 2, false⟩,
        [((2, 2), 'X'), ((2, 1), '@'), ((2, 0), 'X')], [], [], some (2, 1), 500⟩
      rfl rfl).2 (0, 1) (by decide)⟩

/-- C4 (amended): the iteration budget does bound the loop — exhausted
fuel returns `False` (not found) without raising — and a drained stack in
an error-free iteration (three readings obtained, no object in front, no
unexplored candidate, exactly one stack entry left) also returns `False`;
but the never-raises part of the claim is false: errors from sensing or
moving propagate out, see the counterexample. -/
theorem exploracao_orcamento_e_pilha :
    (∀ st : Explorador, explorarLoop 0 st = .ok false) ∧
    (∀ (fuel : Nat) (st st1 : Explorador) (topo : Pos) (leituras : List Leitura)
        (frente : Leitura),
      st.pilha_navegacao = [topo] →
      atualizar_mapa_com_sensores topo st = .ok st1 →
      obter_leituras_sensores_proximidade st1.ambiente = .ok leituras →
      leituras.get? 1 = some frente →
      frente ≠ .humano →
      encontrar_proxima_posicao_para_explorar topo st1 = .ok none →
      explorarLoop (fuel + 1) st = .ok false) := by
  constructor
  · intro st
    rfl
  · intro fuel st st1 topo leituras frente hpilha hat hle hget hfr hprox
    have hp1 : st1.pilha_navegacao = [topo] := by
      rw [atualizar_pilha hat, hpilha]
    rw [explorarLoop_succ fuel st topo [] hpilha]
    simp only [hat, bind_ok, hle, hget, hprox, hp1]
    rw [if_neg hfr]

/-- C4 counterexample: on the valid map
`["*E*", "* *", "***", "*H*", "***"]` (one entrance, one object, object
unreachable) the exploration walks to the dead end `(1, 1)`, backtracks
to `(0, 1)`, picks the unknown out-of-corridor cell `(0, 2)` as the next
candidate and the advance into the wall raises the collision error, which
propagates out of `explorar_ate_encontrar_objeto` instead of a not-found
result. -/
theorem exploracao_colisao_propagada :
    AmbienteNavegacao.criar
        [['*', 'E', '*'], ['*', ' ', '*'], ['*', '*', '*'], ['*', 'H', '*'],
          ['*', '*', '*']] =
      .ok ⟨[['*', 'E', '*'], ['*', ' ', '*'], ['*', '*', '*'], ['*', 'H', '*'],
        ['*', '*', '*']], (0, 1), 2, false⟩ ∧
    explorar_ate_encontrar_objeto (Explorador.criar
        ⟨[['*', 'E', '*'], ['*', ' ', '*'], ['*', '*', '*'], ['*', 'H', '*'],
          ['*', '*', '*']], (0, 1), 2, false⟩) =
      .error (.colisaoParede (0, 1) (0, 2)) :=
  ⟨rfl, rfl⟩

theorem exploracao_orcamento_e_pilha_witness :
    explorarLoop 0 (Explorador.criar
      ⟨[['*', 'E', '*'], ['*', ' ', '*'], ['*', '@', '*']], (1, 1), 0, false⟩) = .ok false ∧
    explorarLoop 1
      (⟨⟨[['*', 'E', '*'], ['*', '*', '*']], (0, 1), 2, false⟩, [],
        [(0, 0), (0, 2), (0, 1)], [(0, 1)], none, 1⟩ : Explorador) = .ok false :=
  ⟨exploracao_orcamento_e_pilha.1 _,
   exploracao_orcamento_e_pilha.2 0
     (⟨⟨[['*', 'E', '*'], ['*', '*', '*']], (0, 1), 2, false⟩, [],
       [(0, 0), (0, 2), (0, 1)], [(0, 1)], none, 1⟩ : Explorador)
     (⟨⟨[['*', 'E', '*'], ['*', '*', '*']], (0, 1), 2, false⟩,
       [((1, 2), 'X'), ((1, 1), 'X'), ((1, 0), 'X')],
       [(0, 0), (0, 2), (0, 1)], [(0, 1)], none, 1⟩ : Explorador)
     (0, 1) [.parede, .parede, .parede] .parede rfl rfl rfl rfl (by decide) rfl⟩
